import Mathlib

/-!
Verification of the llama.cpp load-balancer / backend-server repository.

The Python sources are shallowly embedded below:
* `src/src/load_balancer.py` — `Backend`, `LoadBalancer.get_next_backend`,
  `LoadBalancer.forward_request` (transport outcomes supplied by an oracle,
  recursion bounded by explicit fuel; the Python recursion terminates because
  every transport failure increments an error counter).
* `src/src/backend_server.py` — prompt composition, token estimation,
  the pydantic request model, the structured-output endpoint
  `v1_beta_chat_completions_parse` (fallible steps supplied as parameters),
  and the schema→GBNF grammar compiler `generate_comprehensive_gbnf_grammar`.

Machine integers do not overflow in any of the embedded code paths
(counters only grow by small increments), so `Nat`/`Int` are used directly.
-/

set_option linter.unusedVariables false
set_option maxRecDepth 40000

namespace LlamaLB

/-! ## Python string helpers

`str.split()` with no separator splits on runs of Python whitespace.
Modelled from CPython semantics (an external builtin): the whitespace set is
the ASCII whitespace/control separators together with the Unicode space
code points recognised by `Py_UNICODE_ISSPACE`. -/

/-- Characters on which CPython's `str.split()` (no argument) splits. -/
def pyIsSpace (c : Char) : Bool :=
  c = ' ' || c = '\t' || c = '\n' || c = '\r' || c = '\x0b' || c = '\x0c' ||
  c = '\x1c' || c = '\x1d' || c = '\x1e' || c = '\x1f' || c = '\x85' || c = '\xa0' ||
  c = '\u1680' || (decide ('\u2000' ≤ c) && decide (c ≤ '\u200a')) ||
  c = '\u2028' || c = '\u2029' || c = '\u202f' || c = '\u205f' || c = '\u3000'

/-- "ASCII whitespace" in the most generous common reading: the six ASCII
characters that are whitespace in the C locale.  This is the class named by
the specification's description of `word_count`. -/
def asciiIsSpace (c : Char) : Bool :=
  c = ' ' || c = '\t' || c = '\n' || c = '\r' || c = '\x0b' || c = '\x0c'

/-- Split a character list into maximal runs of non-`ws` characters,
discarding empty pieces — the semantics of Python `str.split()` relative to a
whitespace class `ws`.  `acc` holds the current run, reversed. -/
def splitRuns (ws : Char → Bool) : List Char → List Char → List (List Char)
  | [], acc => if acc = [] then [] else [acc.reverse]
  | c :: rest, acc =>
    if ws c then
      if acc = [] then splitRuns ws rest [] else acc.reverse :: splitRuns ws rest []
    else splitRuns ws rest (c :: acc)

/-- Independent (claim-side) definition of the number of maximal non-`ws`
runs: count positions that start a run, carrying whether the previous
character was whitespace. -/
def countRuns (ws : Char → Bool) : Bool → List Char → Nat
  | _, [] => 0
  | prevWs, c :: rest =>
    (if !ws c && prevWs then 1 else 0) + countRuns ws (ws c) rest

/-- Embedding of Python `len(text.split())` as used for token counting. -/
def pyWordCount (s : String) : Nat := (splitRuns pyIsSpace s.data []).length

/-- `estimate_tokens` of `backend_server.py`:
`max(1, len(text.split()) + len(text) // 4)`. -/
def estimate_tokens (text : String) : Nat :=
  max 1 (pyWordCount text + text.length / 4)

/-- Python `str.strip()`: drop leading and trailing whitespace. -/
def pyStrip (s : String) : String :=
  String.mk (((s.data.dropWhile (fun c => pyIsSpace c)).reverse.dropWhile
    (fun c => pyIsSpace c)).reverse)

/-! ## Chat messages and prompt composition (`backend_server.py`) -/

structure ChatMessage where
  role : String
  content : String
deriving DecidableEq

/-- Embedding of the prompt-composition loop shared by `v1_chat_completions`
and `v1_beta_chat_completions_parse`: starting from the empty string, append
`"System: <content>\n"` for role `system`, `"User: <content>\n"` for role
`user`, and nothing for any other role. -/
def buildPrompt (msgs : List ChatMessage) : String :=
  msgs.foldl (fun prompt m =>
    if m.role = "system" then prompt ++ "System: " ++ m.content ++ "\n"
    else if m.role = "user" then prompt ++ "User: " ++ m.content ++ "\n"
    else prompt) ""

/-- Claim-side rendering of a single message (used to state that the prompt
is the concatenation of per-message fragments). -/
def renderMessage (m : ChatMessage) : String :=
  if m.role = "system" then "System: " ++ m.content ++ "\n"
  else if m.role = "user" then "User: " ++ m.content ++ "\n"
  else ""

/-! ## Backend health state (`load_balancer.py`, class `Backend`)

The latency ring buffer (`response_times`, `add_response_time`) and
`last_check` are omitted: no claim under verification mentions them and they
do not influence selection or marking. -/

structure Backend where
  host : String
  port : Nat
  is_healthy : Bool := true
  error_count : Nat := 0
deriving DecidableEq

/-- `Backend.__init__`. -/
def Backend.init (host : String) (port : Nat) : Backend :=
  { host := host, port := port }

/-- `mark_error`: increment the counter; at three or more errors the backend
becomes unhealthy (the flag is only ever set to `False` here). -/
def Backend.mark_error (b : Backend) : Backend :=
  let ec := b.error_count + 1
  { b with error_count := ec, is_healthy := if 3 ≤ ec then false else b.is_healthy }

/-- `mark_success`: reset the counter and restore health. -/
def Backend.mark_success (b : Backend) : Backend :=
  { b with error_count := 0, is_healthy := true }

/-- One call to a health-marking mutator. -/
inductive HealthEvent
  | mark_error
  | mark_success
deriving DecidableEq

def Backend.apply_event (b : Backend) : HealthEvent → Backend
  | .mark_error => b.mark_error
  | .mark_success => b.mark_success

/-- Run a finite sequence of marking calls. -/
def Backend.run_events (b : Backend) (evs : List HealthEvent) : Backend :=
  evs.foldl Backend.apply_event b

/-! ## Load balancer (`load_balancer.py`, class `LoadBalancer`)

Python mutates `Backend` objects held by reference in `self.backends`;
here backends are addressed by their position in the registration list,
which identifies an object uniquely (the constructor creates distinct
objects). -/

structure LoadBalancer where
  backends : List Backend
  current_index : Nat := 0
deriving DecidableEq

/-- The local `healthy_backends` list of `get_next_backend`, paired with
each backend's position in the registration list (Python filters the object
list; the position stands for object identity). -/
def LoadBalancer.healthy_backends (lb : LoadBalancer) : List (Nat × Backend) :=
  lb.backends.enum.filter (fun p => p.2.is_healthy)

/-- `get_next_backend`: filter to healthy backends, return `none` if there
are none, otherwise pick `healthy[current_index % len(healthy)]` and set
`current_index = (current_index + 1) % len(healthy)`. -/
def LoadBalancer.get_next_backend (lb : LoadBalancer) :
    Option (Nat × Backend) × LoadBalancer :=
  let healthy := lb.healthy_backends
  if h : healthy.length = 0 then (none, lb)
  else
    let p := healthy.get ⟨lb.current_index % healthy.length,
      Nat.mod_lt _ (Nat.pos_of_ne_zero h)⟩
    (some p, { lb with current_index := (lb.current_index + 1) % healthy.length })

/-- Positions chosen by `n` successive `get_next_backend` calls. -/
def selection_sequence : Nat → LoadBalancer → List (Option Nat)
  | 0, _ => []
  | n + 1, lb =>
    match lb.get_next_backend with
    | (res, lb2) => res.map Prod.fst :: selection_sequence n lb2

/-- Replace the element at index `i` (identity if out of range). -/
def listModify {α : Type} (l : List α) (i : Nat) (f : α → α) : List α :=
  match l.get? i with
  | none => l
  | some a => l.set i (f a)

def LoadBalancer.mark_error_at (lb : LoadBalancer) (i : Nat) : LoadBalancer :=
  { lb with backends := listModify lb.backends i Backend.mark_error }

def LoadBalancer.mark_success_at (lb : LoadBalancer) (i : Nat) : LoadBalancer :=
  { lb with backends := listModify lb.backends i Backend.mark_success }

/-- Outcome of one transport attempt against a backend: an HTTP response
with some status, or a raised transport exception. -/
inductive Transport
  | ok (status : Nat)
  | exn
deriving DecidableEq

/-- Result of `forward_request`: the outcome (`Except.error c` models a
raised `HTTPException(c)`, `Except.ok s` a returned backend status `s`), the
list of backend positions attempted in order, the final balancer state, and
the next oracle index. -/
structure FwdTrace where
  outcome : Except Nat Nat
  attempts : List Nat
  lb : LoadBalancer
  next_k : Nat

/-- `forward_request`: select a backend (503 if none), attempt the request
(outcome given by `oracle` at the running attempt index `k`); on a response,
mark success for status 200 and error otherwise and return the status; on a
transport exception, mark the backend errored, select again, and if the new
selection is absent or the same backend raise 502, otherwise recursively
re-run the whole forward (which performs its own fresh selection).  `fuel`
bounds the recursion depth; `none` means the fuel ran out. -/
def forward_request (oracle : Nat → Transport) :
    Nat → Nat → LoadBalancer → Option FwdTrace
  | 0, _, _ => none
  | fuel + 1, k, lb =>
    match lb.get_next_backend with
    | (none, lb1) => some ⟨.error 503, [], lb1, k⟩
    | (some (i, _b), lb1) =>
      match oracle k with
      | .ok status =>
        some ⟨.ok status, [i],
          if status = 200 then lb1.mark_success_at i else lb1.mark_error_at i, k + 1⟩
      | .exn =>
        match (lb1.mark_error_at i).get_next_backend with
        | (none, lb3) => some ⟨.error 502, [i], lb3, k + 1⟩
        | (some (j, _b2), lb3) =>
          if j = i then some ⟨.error 502, [i], lb3, k + 1⟩
          else
            match forward_request oracle fuel (k + 1) lb3 with
            | none => none
            | some t => some ⟨t.outcome, i :: t.attempts, t.lb, t.next_k⟩

/-! ## JSON-Schema subset and the GBNF grammar compiler
(`backend_server.py`, `generate_comprehensive_gbnf_grammar`)

Schemas arrive as Python dicts; the generator reads the keys `type`,
`properties`, `required`, `items` and `enum`, with `properties` iterated in
insertion order.  The structures below carry exactly those keys (`Option`
marks key absence). -/

structure ItemsSchema where
  type : Option String := none
  enum : Option (List String) := none
deriving DecidableEq

structure PropSchema where
  type : Option String := none
  enum : Option (List String) := none
  items : Option ItemsSchema := none
deriving DecidableEq

structure JsonSchema where
  type : Option String := none
  properties : List (String × PropSchema) := []
  required : List String := []
  items : Option ItemsSchema := none
deriving DecidableEq

/-- Python default for a missing `items` key: `{"type": "string"}`. -/
def defaultItems : ItemsSchema := { type := some "string" }

/-- Substring replacement on character lists (leftmost, non-overlapping),
the semantics of Python `str.replace` for a non-empty pattern.  The fuel
argument (instantiated with the input length, which every step consumes at
least one character of) keeps the recursion structural. -/
def replaceList (pattern repl : List Char) : Nat → List Char → List Char
  | 0, l => l
  | _ + 1, [] => []
  | fuel + 1, c :: rest =>
    if pattern.isPrefixOf (c :: rest) then
      match pattern with
      | [] => c :: replaceList pattern repl fuel rest
      | _ :: ptail => repl ++ replaceList pattern repl fuel (rest.drop ptail.length)
    else c :: replaceList pattern repl fuel rest

/-- Python `s.replace(pattern, repl)` (for the non-empty patterns used by
the grammar generator). -/
def pyReplace (s pattern repl : String) : String :=
  String.mk (replaceList pattern.data repl.data s.data.length s.data)

/-- `" | ".join('"\"" "v" "\""' for v in enum_values)`. -/
def enumAlternation (values : List String) : String :=
  String.intercalate " | " (values.map (fun v => "\"\\\"\" \"" ++ v ++ "\" \"\\\"\""))

/-- The literal returned both for an object schema without properties and as
the final default (`root` derives only an empty JSON object). -/
def default_json_grammar : String :=
  "\nroot ::= \"\x7b\" ws \"\x7d\"\nws ::= [ \\t\\n]*\n"

/-- The block of basic rules appended to every object grammar. -/
def base_rules : String :=
  "\nws ::= [ \\t\\n]*\nstring ::= \"\\\"\" [^\"\\\\]* \"\\\"\"\nnumber ::= \"-\"? [0-9]+ (\".\" [0-9]+)?\nboolean ::= \"true\" | \"false\"\nnested-object ::= \"\x7b\" ws \"\x7d\"\n"

/-- Helper block appended for an array-of-string property. -/
def array_string_block : String :=
  "\narray-string ::= \"[\" ws (string (ws \",\" ws string)*)? ws \"]\"\n"

/-- Helper block appended for an array-of-number property. -/
def array_number_block : String :=
  "\narray-number ::= \"[\" ws (number (ws \",\" ws number)*)? ws \"]\"\n"

/-- Helper block appended for an array-with-enum property. -/
def enum_array_block (enum_values : List String) : String :=
  "\nenum-array ::= \"[\" ws ((" ++ enumAlternation enum_values ++
    ") (ws \",\" ws (" ++ enumAlternation enum_values ++ "))*)? ws \"]\"\n"

/-- `generate_property_grammar` applied to an `items` dict (such a dict in
the supported subset has no `items` key of its own; in the `array` branch
Python would default the inner items to `{"type": "string"}` and produce
`"array-string"`, which is inlined here). -/
def item_rule (items : ItemsSchema) : String :=
  let t := items.type.getD "string"
  if t = "string" then
    match items.enum with
    | some enum_values => "(" ++ enumAlternation enum_values ++ ")"
    | none => "string"
  else if t = "number" || t = "integer" then "number"
  else if t = "boolean" then "boolean"
  else if t = "array" then "array-" ++ (pyReplace "string" "-" "_")
  else if t = "object" then "nested-object"
  else "string"

/-- `generate_property_grammar` of `backend_server.py`. -/
def generate_property_grammar (prop : PropSchema) : String :=
  let prop_type := prop.type.getD "string"
  if prop_type = "string" then
    match prop.enum with
    | some enum_values => "(" ++ enumAlternation enum_values ++ ")"
    | none => "string"
  else if prop_type = "number" || prop_type = "integer" then "number"
  else if prop_type = "boolean" then "boolean"
  else if prop_type = "array" then
    let items_schema := prop.items.getD defaultItems
    match items_schema.enum with
    | some _ => "enum-array"
    | none => "array-" ++ (pyReplace (item_rule items_schema) "-" "_")
  else if prop_type = "object" then "nested-object"
  else "string"

/-- `generate_comprehensive_gbnf_grammar` of `backend_server.py`: the full
grammar string for a schema.  Note that the helper-rule loop appends one
block per array-typed property (no deduplication), and that a top-level
array whose item type is neither `string` nor `number` falls through to the
default empty-object grammar. -/
def generate_comprehensive_gbnf_grammar (schema : JsonSchema) : String :=
  if schema.type = some "object" then
    if schema.properties = [] then default_json_grammar
    else
      let property_rules := schema.properties.map (fun kp =>
        "\"\\\"\" \"" ++ kp.1 ++ "\" \"\\\"\" ws \":\" ws " ++ generate_property_grammar kp.2)
      let grammar :=
        match property_rules with
        | [r] => "root ::= \"\x7b\" ws " ++ r ++ " ws \"\x7d\""
        | rs => "root ::= \"\x7b\" ws " ++ String.intercalate " ws \",\" ws " rs ++
            " ws \"\x7d\""
      let grammar := grammar ++ base_rules
      schema.properties.foldl (fun g kp =>
        if kp.2.type = some "array" then
          let items_schema := kp.2.items.getD defaultItems
          let item_type := items_schema.type.getD "string"
          match items_schema.enum with
          | some enum_values => g ++ enum_array_block enum_values
          | none =>
            if item_type = "string" then g ++ array_string_block
            else if item_type = "number" then g ++ array_number_block
            else g
        else g) grammar
  else if schema.type = some "array" then
    let items_schema := schema.items.getD defaultItems
    let item_type := items_schema.type.getD "string"
    if item_type = "string" then
      match items_schema.enum with
      | some enum_values =>
        "\nroot ::= \"[\" ws ((" ++ enumAlternation enum_values ++ ") (ws \",\" ws (" ++
          enumAlternation enum_values ++ "))*)? ws \"]\"\nws ::= [ \\t\\n]*\n"
      | none =>
        "\nroot ::= \"[\" ws (string (ws \",\" ws string)*)? ws \"]\"\nws ::= [ \\t\\n]*\nstring ::= \"\\\"\" [^\"\\\\]* \"\\\"\"\n"
    else if item_type = "number" then
      "\nroot ::= \"[\" ws (number (ws \",\" ws number)*)? ws \"]\"\nws ::= [ \\t\\n]*\nnumber ::= \"-\"? [0-9]+ (\".\" [0-9]+)?\n"
    else default_json_grammar
  else default_json_grammar

/-- Number of (possibly overlapping) occurrences of `pattern` in `s`. -/
def countOccurrences (pattern : List Char) : List Char → Nat
  | [] => 0
  | c :: rest =>
    (if pattern.isPrefixOf (c :: rest) then 1 else 0) + countOccurrences pattern rest

/-! ## JSON values -/

/-- A parsed JSON value.  Numbers keep their lexeme (no claim depends on
numeric value), objects keep fields in textual order. -/
inductive Json
  | null
  | bool (b : Bool)
  | num (lexeme : String)
  | str (s : String)
  | arr (elems : List Json)
  | obj (fields : List (String × Json))

/-! ## A model of Python `json.loads` (strict RFC 8259 parsing)

`json` is an external library; this parser models `json.loads` on the
constructs relevant here: strict mode rejects raw control characters inside
strings and numbers with leading zeros.  (`NaN`/`Infinity` extensions are
not modelled; no claim involves them.) -/

def hexVal (c : Char) : Option Nat :=
  if '0' ≤ c ∧ c ≤ '9' then some (c.toNat - '0'.toNat)
  else if 'a' ≤ c ∧ c ≤ 'f' then some (c.toNat - 'a'.toNat + 10)
  else if 'A' ≤ c ∧ c ≤ 'F' then some (c.toNat - 'A'.toNat + 10)
  else none

/-- Parse the body of a JSON string after the opening quote; returns the
decoded string and the input after the closing quote. -/
def parseStringBody (strict : Bool) : List Char → List Char → Option (String × List Char)
  | _, [] => none
  | acc, c :: rest =>
    if c = '"' then some (String.mk acc.reverse, rest)
    else if c = '\\' then
      match rest with
      | [] => none
      | e :: rest2 =>
        if e = '"' then parseStringBody strict ('"' :: acc) rest2
        else if e = '\\' then parseStringBody strict ('\\' :: acc) rest2
        else if e = '/' then parseStringBody strict ('/' :: acc) rest2
        else if e = 'b' then parseStringBody strict ('\x08' :: acc) rest2
        else if e = 'f' then parseStringBody strict ('\x0c' :: acc) rest2
        else if e = 'n' then parseStringBody strict ('\n' :: acc) rest2
        else if e = 'r' then parseStringBody strict ('\r' :: acc) rest2
        else if e = 't' then parseStringBody strict ('\t' :: acc) rest2
        else if e = 'u' then
          match rest2 with
          | h1 :: h2 :: h3 :: h4 :: rest3 =>
            match hexVal h1, hexVal h2, hexVal h3, hexVal h4 with
            | some a, some b, some c2, some d =>
              parseStringBody strict (Char.ofNat (((a * 16 + b) * 16 + c2) * 16 + d) :: acc) rest3
            | _, _, _, _ => none
          | _ => none
        else none
    else if strict && decide (c.toNat < 32) then none
    else parseStringBody strict (c :: acc) rest

/-- Longest prefix of decimal digits, with the rest of the input. -/
def takeDigits : List Char → List Char × List Char
  | [] => ([], [])
  | c :: rest =>
    if c.isDigit then
      let (ds, r) := takeDigits rest
      (c :: ds, r)
    else ([], c :: rest)

/-- Parse a JSON number lexeme; strict mode rejects leading zeros. -/
def parseNumber (strict : Bool) (l : List Char) : Option (String × List Char) :=
  let (sign, l1) :=
    match l with
    | '-' :: r => ((['-'] : List Char), r)
    | _ => (([] : List Char), l)
  match takeDigits l1 with
  | ([], _) => none
  | (ds, l2) =>
    if strict && decide (2 ≤ ds.length) && decide (ds.head? = some '0') then none
    else
      let (frac, l3) :=
        match l2 with
        | '.' :: r =>
          (match takeDigits r with
           | ([], _) => (([] : List Char), l2)
           | (fs, r2) => ('.' :: fs, r2))
        | _ => (([] : List Char), l2)
      let (ex, l4) :=
        match l3 with
        | c :: r =>
          if c = 'e' ∨ c = 'E' then
            let (es, r2) :=
              match r with
              | s :: r3 => if s = '+' ∨ s = '-' then (([s] : List Char), r3) else ([], r)
              | [] => (([] : List Char), r)
            match takeDigits r2 with
            | ([], _) => (([] : List Char), l3)
            | (xs, r4) => (c :: es ++ xs, r4)
          else (([] : List Char), l3)
        | [] => (([] : List Char), l3)
      some (String.mk (sign ++ ds ++ frac ++ ex), l4)

def jsonWsChar (c : Char) : Bool := c = ' ' || c = '\t' || c = '\n' || c = '\r'

def skipWs : List Char → List Char
  | [] => []
  | c :: rest => if jsonWsChar c then skipWs rest else c :: rest

mutual

/-- Parse one JSON value (whitespace before it allowed), returning the value
and the unconsumed input.  `fuel` bounds recursion depth and member counts. -/
def parseValue (strict : Bool) : Nat → List Char → Option (Json × List Char)
  | 0, _ => none
  | fuel + 1, l =>
    match skipWs l with
    | [] => none
    | c :: rest =>
      if c = '"' then
        match parseStringBody strict [] rest with
        | some (s, r) => some (.str s, r)
        | none => none
      else if c = '\x7b' then
        match skipWs rest with
        | '\x7d' :: r2 => some (.obj [], r2)
        | r2 => parseMembers strict fuel [] r2
      else if c = '[' then
        match skipWs rest with
        | ']' :: r2 => some (.arr [], r2)
        | r2 => parseElems strict fuel [] r2
      else if c = 't' then
        match rest with
        | 'r' :: 'u' :: 'e' :: r => some (.bool true, r)
        | _ => none
      else if c = 'f' then
        match rest with
        | 'a' :: 'l' :: 's' :: 'e' :: r => some (.bool false, r)
        | _ => none
      else if c = 'n' then
        match rest with
        | 'u' :: 'l' :: 'l' :: r => some (.null, r)
        | _ => none
      else
        match parseNumber strict (c :: rest) with
        | some (lex, r) => some (.num lex, r)
        | none => none

/-- Parse `string ws ":" value (ws "," ...)* ws "}"` inside an object. -/
def parseMembers (strict : Bool) :
    Nat → List (String × Json) → List Char → Option (Json × List Char)
  | 0, _, _ => none
  | fuel + 1, acc, l =>
    match skipWs l with
    | '"' :: rest =>
      match parseStringBody strict [] rest with
      | some (k, r1) =>
        match skipWs r1 with
        | ':' :: r2 =>
          match parseValue strict fuel r2 with
          | some (v, r3) =>
            match skipWs r3 with
            | ',' :: r4 => parseMembers strict fuel (acc ++ [(k, v)]) r4
            | '\x7d' :: r4 => some (.obj (acc ++ [(k, v)]), r4)
            | _ => none
          | none => none
        | _ => none
      | none => none
    | _ => none

/-- Parse `value (ws "," value)* ws "]"` inside an array. -/
def parseElems (strict : Bool) : Nat → List Json → List Char → Option (Json × List Char)
  | 0, _, _ => none
  | fuel + 1, acc, l =>
    match parseValue strict fuel l with
    | some (v, r1) =>
      match skipWs r1 with
      | ',' :: r2 => parseElems strict fuel (acc ++ [v]) r2
      | ']' :: r2 => some (.arr (acc ++ [v]), r2)
      | _ => none
    | none => none

end

/-- Model of Python `json.loads`: parse one document, allow surrounding
whitespace, reject trailing input. -/
def json_loads (s : String) : Option Json :=
  match parseValue true (s.length + 1) s.data with
  | some (j, rest) => if skipWs rest = [] then some j else none
  | none => none

/-! ## Lenient JSON text relation

`JTextL j s` states that the character list `s` is the text of the JSON
value `j` under a lenient reading: strings are escape-free runs of
characters other than `"` and `\` (raw control characters allowed — strict
JSON rejects them), and number lexemes may carry leading zeros (strict JSON
rejects them).  Arrays and objects follow the JSON grammar with optional
whitespace in the standard positions. -/

def noEscChars (l : List Char) : Prop := ∀ c ∈ l, c ≠ '"' ∧ c ≠ '\\'

instance noEscChars.instDecidable (l : List Char) : Decidable (noEscChars l) :=
  inferInstanceAs (Decidable (∀ c ∈ l, c ≠ '"' ∧ c ≠ '\\'))

def digitsOnly (l : List Char) : Prop := l ≠ [] ∧ ∀ c ∈ l, c.isDigit = true

/-- Lenient number lexeme. -/
def NumLex (s : List Char) : Prop :=
  ∃ sign ds frac ex,
    (sign = [] ∨ sign = ['-']) ∧ digitsOnly ds ∧
    (frac = [] ∨ ∃ fs, digitsOnly fs ∧ frac = '.' :: fs) ∧
    (ex = [] ∨ ∃ e sg xs, (e = 'e' ∨ e = 'E') ∧ (sg = [] ∨ sg = ['+'] ∨ sg = ['-']) ∧
      digitsOnly xs ∧ ex = e :: (sg ++ xs)) ∧
    s = sign ++ ds ++ frac ++ ex

def WsJChar (c : Char) : Prop := c = ' ' ∨ c = '\t' ∨ c = '\n' ∨ c = '\r'

def WsJ (l : List Char) : Prop := ∀ c ∈ l, WsJChar c

mutual

inductive JTextL : Json → List Char → Prop
  | null : JTextL .null ('n' :: 'u' :: 'l' :: 'l' :: [])
  | btrue : JTextL (.bool true) ('t' :: 'r' :: 'u' :: 'e' :: [])
  | bfalse : JTextL (.bool false) ('f' :: 'a' :: 'l' :: 's' :: 'e' :: [])
  | num (lex : List Char) : NumLex lex → JTextL (.num (String.mk lex)) lex
  | str (cs : List Char) : noEscChars cs → JTextL (.str (String.mk cs)) ('"' :: cs ++ ['"'])
  | arrEmpty (w : List Char) : WsJ w → JTextL (.arr []) ('[' :: w ++ [']'])
  | arr (w s : List Char) (js : List Json) : WsJ w → JItems js s →
      JTextL (.arr js) ('[' :: w ++ s ++ [']'])
  | objEmpty (w : List Char) : WsJ w → JTextL (.obj []) ('\x7b' :: w ++ ['\x7d'])
  | obj (w s : List Char) (fs : List (String × Json)) : WsJ w → JMembers fs s →
      JTextL (.obj fs) ('\x7b' :: w ++ s ++ ['\x7d'])

inductive JItems : List Json → List Char → Prop
  | last (j : Json) (s w : List Char) : JTextL j s → WsJ w → JItems [j] (s ++ w)
  | cons (j : Json) (s w1 w2 rest : List Char) (js : List Json) :
      JTextL j s → WsJ w1 → WsJ w2 → JItems js rest →
      JItems (j :: js) (s ++ w1 ++ ',' :: w2 ++ rest)

inductive JMembers : List (String × Json) → List Char → Prop
  | last (k : List Char) (j : Json) (w1 w2 vs w3 : List Char) :
      noEscChars k → JTextL j vs → WsJ w1 → WsJ w2 → WsJ w3 →
      JMembers [(String.mk k, j)] ('"' :: k ++ '"' :: (w1 ++ ':' :: w2 ++ vs ++ w3))
  | cons (k : List Char) (j : Json) (w1 w2 vs w3 w4 rest : List Char)
      (fs : List (String × Json)) :
      noEscChars k → JTextL j vs → WsJ w1 → WsJ w2 → WsJ w3 → WsJ w4 → JMembers fs rest →
      JMembers ((String.mk k, j) :: fs)
        ('"' :: k ++ '"' :: (w1 ++ ':' :: w2 ++ vs ++ w3 ++ ',' :: w4 ++ rest))

end

/-! ## Denotational language of the generated grammars

The definitions below interpret the grammar text produced by
`generate_comprehensive_gbnf_grammar`, rule by rule: `WsG` is the language
of `ws ::= [ \t\n]*`, `GStr` of `string`, `GNum` of `number`, `GBool` of
`boolean`, `GEmptyObj` of `nested-object` (and of the default grammar's
`root`), `GEnum` of an inline enum alternation, and `GArr L` of a helper
rule `"[" ws (X (ws "," ws X)*)? ws "]"` with element language `L`.
A reference to a helper rule that the generator never emits (for example
`array-boolean`) derives nothing: its language is empty. -/

def WsGChar (c : Char) : Prop := c = ' ' ∨ c = '\t' ∨ c = '\n'

def WsG (l : List Char) : Prop := ∀ c ∈ l, WsGChar c

def GStr (s : List Char) : Prop := ∃ cs, noEscChars cs ∧ s = '"' :: cs ++ ['"']

/-- Language of `number ::= "-"? [0-9]+ ("." [0-9]+)?`. -/
def GNum (s : List Char) : Prop :=
  ∃ sign ds frac,
    (sign = [] ∨ sign = ['-']) ∧ digitsOnly ds ∧
    (frac = [] ∨ ∃ fs, digitsOnly fs ∧ frac = '.' :: fs) ∧
    s = sign ++ ds ++ frac

def GBool (s : List Char) : Prop :=
  s = ('t' :: 'r' :: 'u' :: 'e' :: []) ∨ s = ('f' :: 'a' :: 'l' :: 's' :: 'e' :: [])

def GEnum (vals : List String) (s : List Char) : Prop :=
  ∃ v ∈ vals, s = '"' :: v.data ++ ['"']

def GEmptyObj (s : List Char) : Prop :=
  ∃ w, WsG w ∧ s = '\x7b' :: w ++ ['\x7d']

/-- `X (ws "," ws X)*` for an element language `L`. -/
inductive GSeq (L : List Char → Prop) : List Char → Prop
  | single (s : List Char) : L s → GSeq L s
  | cons (s w1 w2 rest : List Char) : L s → WsG w1 → WsG w2 → GSeq L rest →
      GSeq L (s ++ w1 ++ ',' :: w2 ++ rest)

/-- `"[" ws (X (ws "," ws X)*)? ws "]"`. -/
def GArr (L : List Char → Prop) (s : List Char) : Prop :=
  (∃ w1 w2, WsG w1 ∧ WsG w2 ∧ s = '[' :: (w1 ++ w2) ++ [']']) ∨
  (∃ w1 body w2, WsG w1 ∧ GSeq L body ∧ WsG w2 ∧ s = '[' :: (w1 ++ body ++ w2) ++ [']'])

/-- Language of the value rule `generate_property_grammar` emits for a
property, interpreting rule references in the generated grammar.  Helper
references the generator never defines (array items typed `integer`,
`boolean`, `object` or `array`) have the empty language; when several
array-with-enum properties exist the grammar contains several conflicting
`enum-array` definitions, and this interpretation reads each property
against its own enum (sound only when those enums agree, which the
soundness theorem's hypotheses require). -/
def propValueLang (prop : PropSchema) : List Char → Prop :=
  let prop_type := prop.type.getD "string"
  if prop_type = "string" then
    match prop.enum with
    | some vals => GEnum vals
    | none => GStr
  else if prop_type = "number" ∨ prop_type = "integer" then GNum
  else if prop_type = "boolean" then GBool
  else if prop_type = "array" then
    let items := prop.items.getD defaultItems
    match items.enum with
    | some vals => GArr (GEnum vals)
    | none =>
      let t := items.type.getD "string"
      if t = "string" then GArr GStr
      else if t = "number" then GArr GNum
      else fun _ => False
  else if prop_type = "object" then GEmptyObj
  else GStr

/-- Language of the joined property fragments
`"\"" "k" "\"" ws ":" ws V ( ws "," ws "\"" "k2" "\"" ws ":" ws V2 )*`. -/
inductive PropsLang : List (String × PropSchema) → List Char → Prop
  | single (k : String) (p : PropSchema) (w1 w2 v : List Char) :
      propValueLang p v → WsG w1 → WsG w2 →
      PropsLang [(k, p)] ('"' :: k.data ++ '"' :: (w1 ++ ':' :: w2 ++ v))
  | cons (k : String) (p : PropSchema) (w1 w2 v w3 w4 rest : List Char)
      (ps : List (String × PropSchema)) :
      propValueLang p v → WsG w1 → WsG w2 → WsG w3 → WsG w4 → PropsLang ps rest →
      PropsLang ((k, p) :: ps)
        ('"' :: k.data ++ '"' :: (w1 ++ ':' :: w2 ++ v ++ w3 ++ ',' :: w4 ++ rest))

/-- Language of `root` in the grammar `generate_comprehensive_gbnf_grammar`
produces for a schema, following the generator's branching: object schemas
with properties derive `"{" ws fragments ws "}"`, object schemas without
properties and every fall-through case derive the default empty-object
grammar, and top-level arrays derive the corresponding array rule (the enum
alternation is honoured only for string-typed items, as in the source). -/
def SchemaLang (schema : JsonSchema) : List Char → Prop :=
  if schema.type = some "object" then
    if schema.properties = [] then GEmptyObj
    else fun s => ∃ w0 mid w1, WsG w0 ∧ PropsLang schema.properties mid ∧ WsG w1 ∧
      s = '\x7b' :: (w0 ++ mid ++ w1) ++ ['\x7d']
  else if schema.type = some "array" then
    let items := schema.items.getD defaultItems
    let t := items.type.getD "string"
    if t = "string" then
      match items.enum with
      | some vals => GArr (GEnum vals)
      | none => GArr GStr
    else if t = "number" then GArr GNum
    else GEmptyObj
  else GEmptyObj

/-! ## The schema subset and top-level shape of the claims -/

/-- The supported subset named by the claims: top-level object or array,
scalar leaves `string`/`number`/`integer`/`boolean`, enums (non-empty, on
string leaves and on array items), one level of nested object. -/
def scalarType (t : String) : Prop :=
  t = "string" ∨ t = "number" ∨ t = "integer" ∨ t = "boolean"

def supportedItems (items : ItemsSchema) : Prop :=
  scalarType (items.type.getD "string") ∧
  (∀ vals, items.enum = some vals → vals ≠ [])

def supportedProp (prop : PropSchema) : Prop :=
  (scalarType (prop.type.getD "string") ∨ prop.type = some "object" ∨
    (prop.type = some "array" ∧ supportedItems (prop.items.getD defaultItems))) ∧
  (∀ vals, prop.enum = some vals → prop.type.getD "string" = "string" ∧ vals ≠ [])

def SupportedSchema (schema : JsonSchema) : Prop :=
  (schema.type = some "object" ∧ ∀ kp ∈ schema.properties, supportedProp kp.2) ∨
  (schema.type = some "array" ∧ supportedItems (schema.items.getD defaultItems))

/-- Shape required of an array element by the claim: a string (from the
declared set if an enum is declared), number, or boolean, per item type. -/
def itemShapeOK (items : ItemsSchema) (j : Json) : Bool :=
  match items.enum with
  | some vals => (match j with | .str s => vals.contains s | _ => false)
  | none =>
    let t := items.type.getD "string"
    if t = "string" then (match j with | .str _ => true | _ => false)
    else if t = "number" || t = "integer" then (match j with | .num _ => true | _ => false)
    else if t = "boolean" then (match j with | .bool _ => true | _ => false)
    else false

/-- Shape required of a property value by the claim. -/
def propShapeOK (prop : PropSchema) (j : Json) : Bool :=
  let t := prop.type.getD "string"
  if t = "string" then
    match prop.enum with
    | some vals => (match j with | .str s => vals.contains s | _ => false)
    | none => (match j with | .str _ => true | _ => false)
  else if t = "number" || t = "integer" then (match j with | .num _ => true | _ => false)
  else if t = "boolean" then (match j with | .bool _ => true | _ => false)
  else if t = "array" then
    match j with
    | .arr elems => elems.all (itemShapeOK (prop.items.getD defaultItems))
    | _ => false
  else if t = "object" then (match j with | .obj _ => true | _ => false)
  else (match j with | .str _ => true | _ => false)

/-- Fields of the parsed object match the declared properties exactly and
in declared order, with each value of the declared shape. -/
def fieldsShapeOK : List (String × Json) → List (String × PropSchema) → Bool
  | [], [] => true
  | (k, j) :: fs, (k2, p) :: ps => k == k2 && propShapeOK p j && fieldsShapeOK fs ps
  | _, _ => false

/-- The claim's top-level shape requirement for a parsed value. -/
def shapeOK (schema : JsonSchema) (j : Json) : Bool :=
  if schema.type = some "object" then
    match j with
    | .obj fields => fieldsShapeOK fields schema.properties
    | _ => false
  else if schema.type = some "array" then
    match j with
    | .arr elems => elems.all (itemShapeOK (schema.items.getD defaultItems))
    | _ => false
  else true

/-- Claim C1 as stated: for every schema in the supported subset, every
string derivable from the generated grammar parses as JSON (`json.loads`)
and has the schema's top-level shape. -/
def ClaimC1Statement : Prop :=
  ∀ schema, SupportedSchema schema → ∀ s, SchemaLang schema s →
    ∃ j, json_loads (String.mk s) = some j ∧ shapeOK schema j = true

/-! ## Worker structured endpoint
(`backend_server.py`, `v1_beta_chat_completions_parse`)

External collaborators are parameters: `grammar_from_string_ok` is the
outcome of `LlamaGrammar.from_string`, `engine n` the outcome of the `n`-th
`model.create_completion` call of the request, and `jloads` the outcome of
`json.loads` on a given text. -/

/-- Python `x or d` for `Optional[int]` (both `None` and `0` are falsy). -/
def pyOrInt : Option Int → Int → Int
  | none, d => d
  | some x, d => if x = 0 then d else x

/-- Arguments of one `model.create_completion` call that the claims inspect. -/
structure EngineCall where
  prompt : String
  max_tokens : Option Int
  grammar : Option String
deriving DecidableEq

inductive EngineOutcome
  | ok (text : String)
  | exn (msg : String)

/-- The three relevant shapes of `request.response_format`: absent / falsy /
not a dict; a dict without `"json_schema"`; a dict with
`json_schema.schema`. -/
inductive ResponseFormat
  | null
  | dictNoSchema
  | dictSchema (schema : JsonSchema)

/-- The `parsed` field attached to the response message. -/
inductive ParsedField
  | absent
  | value (j : Json)
  | wrapped (err : String) (content : String)

structure Usage where
  prompt_tokens : Nat
  completion_tokens : Nat
  total_tokens : Nat
deriving DecidableEq

/-- Outcome of the endpoint: a 200 response, or a raised `HTTPException`. -/
inductive ParseResult
  | ok (content : String) (parsed : ParsedField) (usage : Usage) (calls : List EngineCall)
  | httpError (status : Nat) (calls : List EngineCall)

def ParseResult.calls : ParseResult → List EngineCall
  | .ok _ _ _ cs => cs
  | .httpError _ cs => cs

def ParseResult.status : ParseResult → Nat
  | .ok _ _ _ _ => 200
  | .httpError s _ => s

/-- Hexadecimal digit. -/
def hexDigitChar (n : Nat) : Char :=
  if n < 10 then Char.ofNat ('0'.toNat + n) else Char.ofNat ('a'.toNat + n - 10)

/-- JSON string escaping as performed by `json.dumps` (ensure_ascii=False). -/
def jsonEscape (s : String) : String :=
  s.data.foldl (fun acc c =>
    acc ++ (if c = '"' then "\\\"" else if c = '\\' then "\\\\"
      else if c = '\n' then "\\n" else if c = '\t' then "\\t" else if c = '\r' then "\\r"
      else if c = '\x08' then "\\b" else if c = '\x0c' then "\\f"
      else if c.toNat < 32 then
        "\\u00" ++ String.mk [hexDigitChar (c.toNat / 16), hexDigitChar (c.toNat % 16)]
      else String.mk [c])) ""

/-- `json.dumps({"error": e, "content": c}, ensure_ascii=False)`. -/
def json_dumps_error_content (e c : String) : String :=
  "\x7b\"error\": \"" ++ jsonEscape e ++ "\", \"content\": \"" ++ jsonEscape c ++ "\"\x7d"

/-- Embedding of the request-handling body of `v1_beta_chat_completions_parse`
(after the 404 model-existence check).  A raised exception reaching the
outer handler is `HTTPException 500`; in particular a `LlamaGrammar.from_string`
failure is re-raised (`raise grammar_creation_error`) *before* the inner
`try` around the grammar-constrained completion, so it surfaces as 500. -/
def v1_beta_chat_completions_parse
    (messages : List ChatMessage) (response_format : ResponseFormat)
    (req_max_tokens : Option Int) (grammar_from_string_ok : Bool)
    (engine : Nat → EngineOutcome) (jloads : String → Option Json) : ParseResult :=
  let prompt := buildPrompt messages
  let mt : Int := min (pyOrInt req_max_tokens 1000) 1000
  let usageFor := fun (gen : String) =>
    (⟨estimate_tokens prompt, estimate_tokens gen,
      estimate_tokens prompt + estimate_tokens gen⟩ : Usage)
  match response_format with
  | .dictSchema schema =>
    let grammar_str := generate_comprehensive_gbnf_grammar schema
    if grammar_from_string_ok then
      let call1 : EngineCall := ⟨prompt, some mt, some grammar_str⟩
      match engine 0 with
      | .ok text =>
        let generated := pyStrip text
        match jloads generated with
        | some parsed => .ok generated (.value parsed) (usageFor generated) [call1]
        | none =>
          let generated2 := json_dumps_error_content "Grammar constraint failed" generated
          .ok generated2 (.wrapped "Grammar constraint failed" generated)
            (usageFor generated2) [call1]
      | .exn _ =>
        let call2 : EngineCall :=
          ⟨prompt ++ "\nRespond with valid JSON only.", some mt, none⟩
        match engine 1 with
        | .ok text2 =>
          let generated := pyStrip text2
          match jloads generated with
          | some parsed => .ok generated (.value parsed) (usageFor generated) [call1, call2]
          | none =>
            .ok generated (.wrapped "Fallback failed" generated)
              (usageFor generated) [call1, call2]
        | .exn _ => .httpError 500 [call1, call2]
    else .httpError 500 []
  | .dictNoSchema =>
    let call : EngineCall := ⟨prompt, some mt, none⟩
    match engine 0 with
    | .ok text => .ok (pyStrip text) .absent (usageFor (pyStrip text)) [call]
    | .exn _ => .httpError 500 [call]
  | .null =>
    let call : EngineCall := ⟨prompt, some mt, none⟩
    match engine 0 with
    | .ok text => .ok (pyStrip text) .absent (usageFor (pyStrip text)) [call]
    | .exn _ => .httpError 500 [call]

/-! ## Worker plain endpoint (`backend_server.py`, `v1_chat_completions`) -/

structure PlainResult where
  call : EngineCall
  content : String
  usage : Usage
deriving DecidableEq

/-- Embedding of the success path of `v1_chat_completions`: the engine is
called with the composed prompt and `request.max_tokens` unchanged, and the
usage block counts words with `len(text.split())` (no `len // 4` term). -/
def v1_chat_completions (messages : List ChatMessage) (req_max_tokens : Option Int)
    (engineText : String) : PlainResult :=
  let prompt := buildPrompt messages
  { call := ⟨prompt, req_max_tokens, none⟩
    content := engineText
    usage := ⟨pyWordCount prompt, pyWordCount engineText,
      pyWordCount prompt + pyWordCount engineText⟩ }

/-! ## Pydantic request validation (`backend_server.py`, `ChatCompletionRequest`) -/

structure FieldBounds where
  ge : Option Int := none
  le : Option Int := none
deriving DecidableEq

/-- The numeric constraints declared on `ChatCompletionRequest.max_tokens`
and `StructuredChatCompletionRequest.max_tokens`: the field is declared
`Field(default=10000)` with no `ge`/`le` (or any other) constraint. -/
def max_tokens_bounds : FieldBounds := {}

/-- Whether pydantic accepts an integer value for a field with the given
bounds (an out-of-bounds value raises a 422 validation error). -/
def FieldBounds.accepts (fb : FieldBounds) (v : Int) : Bool :=
  (match fb.ge with | none => true | some lo => decide (lo ≤ v)) &&
  (match fb.le with | none => true | some hi => decide (v ≤ hi))

/-! # Claim theorems

Each claim is settled below: its statement is formalised over the
embedding; corrected claims get a counterexample against the statement as
written together with a proof of the amended statement. -/

/-! ## C5 — backend health invariant -/

lemma Backend.apply_event_inv (b : Backend)
    (hb : 3 ≤ b.error_count → b.is_healthy = false) (e : HealthEvent) :
    3 ≤ (b.apply_event e).error_count → (b.apply_event e).is_healthy = false := by
  cases e with
  | mark_error =>
    intro h
    simp only [Backend.apply_event, Backend.mark_error] at h ⊢
    exact if_pos h
  | mark_success =>
    intro h
    simp only [Backend.apply_event, Backend.mark_success] at h
    omega

lemma Backend.run_events_inv (b : Backend)
    (hb : 3 ≤ b.error_count → b.is_healthy = false) (evs : List HealthEvent) :
    3 ≤ (b.run_events evs).error_count → (b.run_events evs).is_healthy = false := by
  induction evs generalizing b with
  | nil => exact hb
  | cons e rest ih =>
    have hstep : b.run_events (e :: rest) = (b.apply_event e).run_events rest := rfl
    rw [hstep]
    exact ih _ (b.apply_event_inv hb e)

/-- C5: for every backend created fresh and every finite sequence of
`mark_error`/`mark_success` calls, whenever `error_count` has reached 3 the
backend is unhealthy, and any subsequent `mark_success` resets
`error_count` to 0 and sets `healthy` to true. -/
theorem C5_health_invariant (host : String) (port : Nat) (evs : List HealthEvent) :
    (3 ≤ ((Backend.init host port).run_events evs).error_count →
      ((Backend.init host port).run_events evs).is_healthy = false) ∧
    ((Backend.init host port).run_events evs).mark_success.error_count = 0 ∧
    ((Backend.init host port).run_events evs).mark_success.is_healthy = true := by
  refine ⟨Backend.run_events_inv _ ?_ evs, rfl, rfl⟩
  intro h
  simp only [Backend.init] at h
  omega

/-- Witness for C5: three errors in a row make a concrete backend
unhealthy, and a success then resets the counter. -/
theorem C5_health_invariant_witness :
    ((Backend.init "127.0.0.1" 8080).run_events
      [.mark_error, .mark_error, .mark_error]).is_healthy = false ∧
    ((Backend.init "127.0.0.1" 8080).run_events
      [.mark_error, .mark_error, .mark_error]).mark_success.error_count = 0 :=
  ⟨(C5_health_invariant "127.0.0.1" 8080
      [.mark_error, .mark_error, .mark_error]).1 (by decide),
   (C5_health_invariant "127.0.0.1" 8080
      [.mark_error, .mark_error, .mark_error]).2.1⟩

/-! ## C2 — round-robin selection -/

/-- Claim C2 as stated: `get_next_backend` returns `none` exactly when no
registered backend is healthy (the client then receives 503); otherwise it
returns `healthy[cursor mod len(healthy)]` and advances the cursor *by
one*; the cursor is not reset by health changes. -/
def ClaimC2Statement : Prop :=
  ∀ lb : LoadBalancer,
    ((lb.get_next_backend).1 = none ↔ lb.healthy_backends = []) ∧
    (lb.get_next_backend).1 =
      lb.healthy_backends.get? (lb.current_index % lb.healthy_backends.length) ∧
    (lb.healthy_backends ≠ [] →
      (lb.get_next_backend).2.current_index = lb.current_index + 1) ∧
    (∀ i, (lb.mark_error_at i).current_index = lb.current_index ∧
      (lb.mark_success_at i).current_index = lb.current_index) ∧
    (∀ oracle fuel k, lb.healthy_backends = [] →
      forward_request oracle (fuel + 1) k lb = some ⟨.error 503, [], lb, k⟩)

/-- C2 as stated is false: with a single healthy backend and cursor 0, the
code sets the cursor to `(0 + 1) % 1 = 0`, not to `1` — the advance is
taken modulo the healthy count. -/
theorem C2_claim_counterexample : ¬ClaimC2Statement := by
  intro h
  have h2 := (h ⟨[Backend.init "h" 8080], 0⟩).2.2.1 (by decide)
  revert h2
  decide

lemma get_next_backend_fst (lb : LoadBalancer) :
    (lb.get_next_backend).1 =
      lb.healthy_backends.get? (lb.current_index % lb.healthy_backends.length) := by
  unfold LoadBalancer.get_next_backend
  by_cases h : lb.healthy_backends.length = 0
  · simp [h, List.length_eq_zero.mp h]
  · have hlt : lb.current_index % lb.healthy_backends.length < lb.healthy_backends.length :=
      Nat.mod_lt _ (Nat.pos_of_ne_zero h)
    simp only [h, dite_false]
    exact (List.get?_eq_get hlt).symm

lemma get_next_backend_none_iff (lb : LoadBalancer) :
    (lb.get_next_backend).1 = none ↔ lb.healthy_backends = [] := by
  rw [get_next_backend_fst]
  constructor
  · intro h
    by_contra hne
    have hlt : lb.current_index % lb.healthy_backends.length < lb.healthy_backends.length :=
      Nat.mod_lt _ (List.length_pos.mpr hne)
    rw [List.get?_eq_get hlt] at h
    simp at h
  · intro h
    simp [h]

lemma get_next_backend_cursor (lb : LoadBalancer) (h : lb.healthy_backends ≠ []) :
    (lb.get_next_backend).2.current_index =
      (lb.current_index + 1) % lb.healthy_backends.length := by
  have h0 : ¬ lb.healthy_backends.length = 0 := by
    simpa [List.length_eq_zero] using h
  unfold LoadBalancer.get_next_backend
  simp [h0]

lemma get_next_backend_backends (lb : LoadBalancer) :
    (lb.get_next_backend).2.backends = lb.backends := by
  unfold LoadBalancer.get_next_backend
  by_cases h : lb.healthy_backends.length = 0 <;> simp [h]

lemma forward_request_503 (oracle : Nat → Transport) (fuel k : Nat) (lb : LoadBalancer)
    (h : lb.healthy_backends = []) :
    forward_request oracle (fuel + 1) k lb = some ⟨.error 503, [], lb, k⟩ := by
  have hnone : lb.get_next_backend = (none, lb) := by
    unfold LoadBalancer.get_next_backend
    simp [h]
  unfold forward_request
  rw [hnone]

/-- C2 amended: `get_next_backend` returns `none` exactly when no
registered backend is healthy (and `forward_request` then raises 503);
otherwise it returns `healthy[cursor mod len(healthy)]` and sets the cursor
to `(cursor + 1) mod len(healthy)` — an advance by one taken modulo the
healthy count, never a reset; marking a backend does not touch the cursor;
and six selections on a fresh three-backend balancer yield A, B, C, A, B,
C. -/
theorem C2_round_robin_amended (lb : LoadBalancer) :
    ((lb.get_next_backend).1 = none ↔ lb.healthy_backends = []) ∧
    (lb.get_next_backend).1 =
      lb.healthy_backends.get? (lb.current_index % lb.healthy_backends.length) ∧
    (lb.healthy_backends ≠ [] →
      (lb.get_next_backend).2.current_index =
        (lb.current_index + 1) % lb.healthy_backends.length ∧
      (lb.get_next_backend).2.backends = lb.backends) ∧
    (∀ i, (lb.mark_error_at i).current_index = lb.current_index ∧
      (lb.mark_success_at i).current_index = lb.current_index) ∧
    (∀ oracle fuel k, lb.healthy_backends = [] →
      forward_request oracle (fuel + 1) k lb = some ⟨.error 503, [], lb, k⟩) ∧
    selection_sequence 6 ⟨[Backend.init "A" 8080, Backend.init "B" 8081,
        Backend.init "C" 8082], 0⟩ =
      [some 0, some 1, some 2, some 0, some 1, some 2] := by
  refine ⟨get_next_backend_none_iff lb, get_next_backend_fst lb,
    fun h => ⟨get_next_backend_cursor lb h, get_next_backend_backends lb⟩,
    fun i => ⟨rfl, rfl⟩,
    fun oracle fuel k h => forward_request_503 oracle fuel k lb h,
    by decide⟩

/-- Witness for C2 amended at concrete balancers: the cursor wraps to 0 on
a single-backend balancer after one selection, and a balancer whose only
backend is unhealthy raises 503. -/
theorem C2_round_robin_amended_witness :
    ((⟨[Backend.init "h" 8080], 0⟩ : LoadBalancer).get_next_backend).2.current_index =
      (0 + 1) % (⟨[Backend.init "h" 8080], 0⟩ : LoadBalancer).healthy_backends.length ∧
    forward_request (fun _ => Transport.exn) 1 0 ⟨[⟨"h", 8080, false, 3⟩], 0⟩ =
      some ⟨.error 503, [], ⟨[⟨"h", 8080, false, 3⟩], 0⟩, 0⟩ :=
  ⟨((C2_round_robin_amended ⟨[Backend.init "h" 8080], 0⟩).2.2.1 (by decide)).1,
   (C2_round_robin_amended ⟨[⟨"h", 8080, false, 3⟩], 0⟩).2.2.2.2.1
     (fun _ => Transport.exn) 0 0 (by decide)⟩

/-! ## C6 — max_tokens bounds -/

/-- Claim C6 as stated: an integer `max_tokens` outside `[1, 32768]` is
rejected by the request model's validation before any engine call. -/
def ClaimC6Statement : Prop :=
  ∀ v : Int, (v < 1 ∨ 32768 < v) → max_tokens_bounds.accepts v = false

/-- C6 as stated is false: the pydantic field declares no bounds, so the
out-of-range value 40000 passes validation. -/
theorem C6_claim_counterexample : ¬ClaimC6Statement := by
  intro h
  have h2 := h 40000 (by norm_num)
  revert h2
  decide

/-- C6 amended: no bounds are declared on `max_tokens`, every integer value
passes validation, and the plain completion endpoint forwards the value
unchanged to the engine. -/
theorem C6_no_bounds_amended (v : Int) :
    max_tokens_bounds.accepts v = true ∧
    (∀ msgs t, (v1_chat_completions msgs (some v) t).call.max_tokens = some v) :=
  ⟨rfl, fun _ _ => rfl⟩

/-! ## C9 — prompt composition -/

lemma foldl_append_acc (l : List String) : ∀ acc : String,
    l.foldl (fun r s => r ++ s) acc = acc ++ l.foldl (fun r s => r ++ s) "" := by
  induction l with
  | nil => intro acc; simp
  | cons b rest ih =>
    intro acc
    simp only [List.foldl_cons]
    rw [ih ("" ++ b), ih (acc ++ b), String.append_assoc]
    simp

lemma join_cons (a : String) (l : List String) :
    String.join (a :: l) = a ++ String.join l := by
  simp only [String.join, List.foldl_cons]
  have h1 : ("" : String) ++ a = a := by simp
  rw [h1, foldl_append_acc]

lemma join_append (l1 l2 : List String) :
    String.join (l1 ++ l2) = String.join l1 ++ String.join l2 := by
  induction l1 with
  | nil => simp [String.join]
  | cons a rest ih =>
    simp only [List.cons_append, join_cons, ih, String.append_assoc]

lemma buildPrompt_aux (msgs : List ChatMessage) : ∀ acc : String,
    msgs.foldl (fun prompt m =>
      if m.role = "system" then prompt ++ "System: " ++ m.content ++ "\n"
      else if m.role = "user" then prompt ++ "User: " ++ m.content ++ "\n"
      else prompt) acc = acc ++ String.join (msgs.map renderMessage) := by
  induction msgs with
  | nil => intro acc; simp [String.join]
  | cons m rest ih =>
    intro acc
    simp only [List.foldl_cons, List.map_cons]
    rw [join_cons, ih]
    unfold renderMessage
    split_ifs <;> simp [String.append_assoc]

lemma buildPrompt_eq_join (msgs : List ChatMessage) :
    buildPrompt msgs = String.join (msgs.map renderMessage) := by
  unfold buildPrompt
  rw [buildPrompt_aux]
  simp

lemma append_nl_getLast (a x : String) :
    (a ++ (x ++ "\n")).data.getLast? = some '\n' := by
  have h : (a ++ (x ++ "\n")).data = (a.data ++ x.data) ++ ['\n'] := by
    simp [String.data_append]
  rw [h, List.getLast?_concat]

lemma buildPrompt_endswith (msgs : List ChatMessage)
    (h : ∃ m ∈ msgs, m.role = "system" ∨ m.role = "user") :
    (buildPrompt msgs).data.getLast? = some '\n' := by
  induction msgs using List.reverseRecOn with
  | nil => simp at h
  | append_singleton l m ih =>
    have hsplit : buildPrompt (l ++ [m]) = buildPrompt l ++ renderMessage m := by
      rw [buildPrompt_eq_join, buildPrompt_eq_join, List.map_append, join_append]
      simp [String.join]
    by_cases hm : m.role = "system"
    · rw [hsplit]
      unfold renderMessage
      rw [if_pos hm]
      exact append_nl_getLast _ _
    · by_cases hu : m.role = "user"
      · rw [hsplit]
        unfold renderMessage
        rw [if_neg hm, if_pos hu]
        exact append_nl_getLast _ _
      · have hrender : renderMessage m = "" := by
          unfold renderMessage
          rw [if_neg hm, if_neg hu]
        rw [hsplit, hrender]
        have hempty : buildPrompt l ++ "" = buildPrompt l := by simp
        rw [hempty]
        apply ih
        obtain ⟨m2, hm2, hrole⟩ := h
        rcases List.mem_append.mp hm2 with hin | hin
        · exact ⟨m2, hin, hrole⟩
        · rw [List.mem_singleton] at hin
          subst hin
          rcases hrole with h1 | h1
          · exact absurd h1 hm
          · exact absurd h1 hu

/-- Claim C9 as stated: the prompt is the in-order concatenation of
`"System: <content>\n"` / `"User: <content>\n"` fragments (other roles
ignored), and it always ends with a newline. -/
def ClaimC9Statement : Prop :=
  ∀ msgs : List ChatMessage,
    buildPrompt msgs = String.join (msgs.map renderMessage) ∧
    (buildPrompt msgs).data.getLast? = some '\n'

/-- C9 as stated is false: a message list with no `system`/`user` message
(here, one `assistant` message) composes the empty prompt, which does not
end with a newline. -/
theorem C9_claim_counterexample : ¬ClaimC9Statement := by
  intro h
  have h2 := (h [⟨"assistant", "hi"⟩]).2
  revert h2
  decide

/-- C9 amended: the prompt is the in-order concatenation of the per-message
fragments, and it ends with a newline whenever at least one message has
role `system` or `user` (with none, the prompt is empty). -/
theorem C9_prompt_composition_amended (msgs : List ChatMessage) :
    buildPrompt msgs = String.join (msgs.map renderMessage) ∧
    ((∃ m ∈ msgs, m.role = "system" ∨ m.role = "user") →
      (buildPrompt msgs).data.getLast? = some '\n') :=
  ⟨buildPrompt_eq_join msgs, buildPrompt_endswith msgs⟩

/-- Witness for C9 amended on a concrete message list. -/
theorem C9_prompt_composition_amended_witness :
    (buildPrompt [⟨"user", "hi"⟩]).data.getLast? = some '\n' :=
  (C9_prompt_composition_amended [⟨"user", "hi"⟩]).2
    ⟨⟨"user", "hi"⟩, by simp, Or.inr rfl⟩

/-! ## C7 — token counting -/

lemma splitRuns_length (ws : Char → Bool) (l : List Char) : ∀ acc : List Char,
    (splitRuns ws l acc).length =
      countRuns ws (decide (acc = [])) l + (if acc = [] then 0 else 1) := by
  induction l with
  | nil =>
    intro acc
    by_cases h : acc = [] <;> simp [splitRuns, countRuns, h]
  | cons c rest ih =>
    intro acc
    by_cases hc : ws c <;> by_cases ha : acc = [] <;>
      (simp [splitRuns, countRuns, hc, ha, ih]; try omega)

lemma pyWordCount_eq_countRuns (s : String) :
    pyWordCount s = countRuns pyIsSpace true s.data := by
  unfold pyWordCount
  rw [splitRuns_length]
  simp

/-- Claim-side `word_count`: maximal runs separated by *ASCII* whitespace. -/
def claimWordCount (s : String) : Nat := countRuns asciiIsSpace true s.data

/-- Claim-side token estimate for the structured endpoint. -/
def claimEstimate (s : String) : Nat := max 1 (claimWordCount s + s.length / 4)

/-- Claim C7 as stated: the structured endpoint's estimate is
`max(1, word_count + len div 4)` and the plain endpoint's counts are
`word_count` alone, with `word_count` splitting on ASCII whitespace, and
`total = prompt + completion` on both endpoints. -/
def ClaimC7Statement : Prop :=
  (∀ text, estimate_tokens text = claimEstimate text) ∧
  (∀ msgs mt t,
    (v1_chat_completions msgs mt t).usage.prompt_tokens = claimWordCount (buildPrompt msgs) ∧
    (v1_chat_completions msgs mt t).usage.completion_tokens = claimWordCount t ∧
    (v1_chat_completions msgs mt t).usage.total_tokens =
      (v1_chat_completions msgs mt t).usage.prompt_tokens +
      (v1_chat_completions msgs mt t).usage.completion_tokens) ∧
  (∀ msgs rf mt gok engine jloads content parsed usage calls,
    v1_beta_chat_completions_parse msgs rf mt gok engine jloads =
      .ok content parsed usage calls →
    usage.prompt_tokens = claimEstimate (buildPrompt msgs) ∧
    usage.completion_tokens = claimEstimate content ∧
    usage.total_tokens = usage.prompt_tokens + usage.completion_tokens)

/-- C7 as stated is false: Python `str.split()` also splits on the ASCII
file-separator control character `\x1c` (and on Unicode whitespace), which
no reading of "ASCII whitespace" contains, so on `"a\x1cb"` the code
counts 2 words where the claim's formula counts 1. -/
theorem C7_claim_counterexample : ¬ClaimC7Statement := by
  intro h
  have h2 := h.1 "a\x1cb"
  revert h2
  decide

/-- C7 amended: the same formulas hold with `word_count` taken as the
number of maximal runs separated by *Python* whitespace (`str.split()`:
Unicode whitespace plus the ASCII separators `\x1c`–`\x1f`; on texts
without those characters this agrees with ASCII whitespace). -/
theorem C7_token_counting_amended :
    (∀ text, estimate_tokens text =
      max 1 (countRuns pyIsSpace true text.data + text.length / 4)) ∧
    (∀ msgs mt t,
      (v1_chat_completions msgs mt t).usage.prompt_tokens =
        countRuns pyIsSpace true (buildPrompt msgs).data ∧
      (v1_chat_completions msgs mt t).usage.completion_tokens =
        countRuns pyIsSpace true t.data ∧
      (v1_chat_completions msgs mt t).usage.total_tokens =
        (v1_chat_completions msgs mt t).usage.prompt_tokens +
        (v1_chat_completions msgs mt t).usage.completion_tokens) ∧
    (∀ msgs rf mt gok engine jloads content parsed usage calls,
      v1_beta_chat_completions_parse msgs rf mt gok engine jloads =
        .ok content parsed usage calls →
      usage.prompt_tokens = estimate_tokens (buildPrompt msgs) ∧
      usage.completion_tokens = estimate_tokens content ∧
      usage.total_tokens = usage.prompt_tokens + usage.completion_tokens) := by
  refine ⟨?_, ?_, ?_⟩
  · intro text
    unfold estimate_tokens
    rw [pyWordCount_eq_countRuns]
  · intro msgs mt t
    refine ⟨?_, ?_, rfl⟩ <;> simp [v1_chat_completions, pyWordCount_eq_countRuns]
  · intro msgs rf mt gok engine jloads content parsed usage calls h
    cases rf with
    | dictSchema schema =>
      cases gok with
      | false => simp [v1_beta_chat_completions_parse] at h
      | true =>
        cases hE0 : engine 0 with
        | ok text =>
          cases hJ : jloads (pyStrip text) with
          | some j =>
            simp [v1_beta_chat_completions_parse, hE0, hJ] at h
            obtain ⟨h1, h2, h3, h4⟩ := h
            subst h1; subst h3
            exact ⟨rfl, rfl, rfl⟩
          | none =>
            simp [v1_beta_chat_completions_parse, hE0, hJ] at h
            obtain ⟨h1, h2, h3, h4⟩ := h
            subst h1; subst h3
            exact ⟨rfl, rfl, rfl⟩
        | exn m =>
          cases hE1 : engine 1 with
          | ok text2 =>
            cases hJ : jloads (pyStrip text2) with
            | some j =>
              simp [v1_beta_chat_completions_parse, hE0, hE1, hJ] at h
              obtain ⟨h1, h2, h3, h4⟩ := h
              subst h1; subst h3
              exact ⟨rfl, rfl, rfl⟩
            | none =>
              simp [v1_beta_chat_completions_parse, hE0, hE1, hJ] at h
              obtain ⟨h1, h2, h3, h4⟩ := h
              subst h1; subst h3
              exact ⟨rfl, rfl, rfl⟩
          | exn m2 =>
            simp [v1_beta_chat_completions_parse, hE0, hE1] at h
    | dictNoSchema =>
      cases hE0 : engine 0 with
      | ok text =>
        simp [v1_beta_chat_completions_parse, hE0] at h
        obtain ⟨h1, h2, h3, h4⟩ := h
        subst h1; subst h3
        exact ⟨rfl, rfl, rfl⟩
      | exn m => simp [v1_beta_chat_completions_parse, hE0] at h
    | null =>
      cases hE0 : engine 0 with
      | ok text =>
        simp [v1_beta_chat_completions_parse, hE0] at h
        obtain ⟨h1, h2, h3, h4⟩ := h
        subst h1; subst h3
        exact ⟨rfl, rfl, rfl⟩
      | exn m => simp [v1_beta_chat_completions_parse, hE0] at h

/-- Witness for C7 amended: the structured-endpoint usage block on a
concrete request. -/
theorem C7_token_counting_amended_witness :
    (⟨1, 4, 5⟩ : Usage).prompt_tokens = estimate_tokens (buildPrompt []) ∧
    (⟨1, 4, 5⟩ : Usage).completion_tokens = estimate_tokens "hello world" ∧
    (⟨1, 4, 5⟩ : Usage).total_tokens =
      (⟨1, 4, 5⟩ : Usage).prompt_tokens + (⟨1, 4, 5⟩ : Usage).completion_tokens :=
  C7_token_counting_amended.2.2 [] .null none true (fun _ => .ok "hello world")
    (fun _ => none) "hello world" .absent ⟨1, 4, 5⟩
    [⟨"", some 1000, none⟩] (by rfl)

/-! ## C10 — effective completion budget on the structured endpoint -/

/-- The claim's effective `max_tokens`: `min(requested, 1000)`, and `1000`
when the request's value is absent or `0`. -/
def claimEffective : Option Int → Int
  | none => 1000
  | some x => if x = 0 then 1000 else min x 1000

lemma effective_eq (mt : Option Int) :
    min (pyOrInt mt 1000) 1000 = claimEffective mt := by
  cases mt with
  | none => simp [pyOrInt, claimEffective]
  | some x => by_cases h : x = 0 <;> simp [pyOrInt, claimEffective, h]

/-- C10: on every generation path of the structured endpoint, every engine
call is issued with `max_tokens = min(requested or 1000, 1000)` — `1000`
when the requested value is absent or `0`, never exceeding `1000`. -/
theorem C10_engine_max_tokens (msgs : List ChatMessage) (rf : ResponseFormat)
    (mt : Option Int) (gok : Bool) (engine : Nat → EngineOutcome)
    (jloads : String → Option Json) (c : EngineCall)
    (hc : c ∈ (v1_beta_chat_completions_parse msgs rf mt gok engine jloads).calls) :
    c.max_tokens = some (claimEffective mt) ∧ claimEffective mt ≤ 1000 := by
  constructor
  · cases rf with
    | dictSchema schema =>
      cases gok with
      | false => simp [v1_beta_chat_completions_parse, ParseResult.calls] at hc
      | true =>
        cases hE0 : engine 0 with
        | ok text =>
          cases hJ : jloads (pyStrip text) with
          | some j =>
            simp [v1_beta_chat_completions_parse, ParseResult.calls, hE0, hJ] at hc
            subst hc
            simp [effective_eq]
          | none =>
            simp [v1_beta_chat_completions_parse, ParseResult.calls, hE0, hJ] at hc
            subst hc
            simp [effective_eq]
        | exn m =>
          cases hE1 : engine 1 with
          | ok text2 =>
            cases hJ : jloads (pyStrip text2) with
            | some j =>
              simp [v1_beta_chat_completions_parse, ParseResult.calls, hE0, hE1, hJ] at hc
              rcases hc with rfl | rfl <;> simp [effective_eq]
            | none =>
              simp [v1_beta_chat_completions_parse, ParseResult.calls, hE0, hE1, hJ] at hc
              rcases hc with rfl | rfl <;> simp [effective_eq]
          | exn m2 =>
            simp [v1_beta_chat_completions_parse, ParseResult.calls, hE0, hE1] at hc
            rcases hc with rfl | rfl <;> simp [effective_eq]
    | dictNoSchema =>
      cases hE0 : engine 0 with
      | ok text =>
        simp [v1_beta_chat_completions_parse, ParseResult.calls, hE0] at hc
        subst hc
        simp [effective_eq]
      | exn m =>
        simp [v1_beta_chat_completions_parse, ParseResult.calls, hE0] at hc
        subst hc
        simp [effective_eq]
    | null =>
      cases hE0 : engine 0 with
      | ok text =>
        simp [v1_beta_chat_completions_parse, ParseResult.calls, hE0] at hc
        subst hc
        simp [effective_eq]
      | exn m =>
        simp [v1_beta_chat_completions_parse, ParseResult.calls, hE0] at hc
        subst hc
        simp [effective_eq]
  · cases mt with
    | none => simp [claimEffective]
    | some x =>
      by_cases h : x = 0 <;> simp [claimEffective, h, min_le_right]

/-- Witness for C10 at a concrete request with `max_tokens = 5000`. -/
theorem C10_engine_max_tokens_witness :
    (⟨"", some 1000, none⟩ : EngineCall).max_tokens = some (claimEffective (some 5000)) ∧
    claimEffective (some 5000) ≤ 1000 :=
  C10_engine_max_tokens [] .null (some 5000) true (fun _ => .ok "x") (fun _ => none)
    ⟨"", some 1000, none⟩ (by decide)

/-! ## C4 — structured-endpoint fallback behaviour -/

/-- Claim C4 as stated: whenever the grammar build fails *or* the engine
call under the grammar fails, the structured endpoint answers HTTP 200
(after a single no-grammar retry with the instruction suffix); schema and
grammar problems never produce a 4xx or 5xx response. -/
def ClaimC4Statement : Prop :=
  ∀ msgs schema mt gok engine jloads,
    (gok = false ∨ ∃ m, engine 0 = EngineOutcome.exn m) →
    (v1_beta_chat_completions_parse msgs (.dictSchema schema) mt gok engine
      jloads).status = 200

/-- C4 as stated is false: a failure of `LlamaGrammar.from_string` is
re-raised before the inner completion `try`, reaches the outer handler and
surfaces as HTTP 500 — no fallback, no 200. -/
theorem C4_claim_counterexample : ¬ClaimC4Statement := by
  intro h
  have h2 := h [] ⟨some "object", [], [], none⟩ none false (fun _ => .ok "x")
    (fun _ => none) (Or.inl rfl)
  revert h2
  simp [v1_beta_chat_completions_parse, ParseResult.status]

/-- C4 amended: only a failure of the engine call *under the grammar*
triggers the fallback; the worker then retries exactly once, without a
grammar, on the prompt with `"\nRespond with valid JSON only."` appended,
and answers 200 — with the parsed value on parse success and with
`{error: "Fallback failed", content: <raw>}` as the parsed field on parse
failure.  A grammar *build* failure is re-raised and surfaces as HTTP 500
with no engine call; a failure of the fallback engine call surfaces as
HTTP 500 after the two calls. -/
theorem C4_fallback_amended (msgs : List ChatMessage) (schema : JsonSchema)
    (mt : Option Int) (engine : Nat → EngineOutcome) (jloads : String → Option Json) :
    (∀ m text2, engine 0 = .exn m → engine 1 = .ok text2 →
      (jloads (pyStrip text2) = none →
        v1_beta_chat_completions_parse msgs (.dictSchema schema) mt true engine jloads =
          .ok (pyStrip text2) (.wrapped "Fallback failed" (pyStrip text2))
            ⟨estimate_tokens (buildPrompt msgs), estimate_tokens (pyStrip text2),
              estimate_tokens (buildPrompt msgs) + estimate_tokens (pyStrip text2)⟩
            [⟨buildPrompt msgs, some (claimEffective mt),
                some (generate_comprehensive_gbnf_grammar schema)⟩,
              ⟨buildPrompt msgs ++ "\nRespond with valid JSON only.",
                some (claimEffective mt), none⟩]) ∧
      (∀ j, jloads (pyStrip text2) = some j →
        v1_beta_chat_completions_parse msgs (.dictSchema schema) mt true engine jloads =
          .ok (pyStrip text2) (.value j)
            ⟨estimate_tokens (buildPrompt msgs), estimate_tokens (pyStrip text2),
              estimate_tokens (buildPrompt msgs) + estimate_tokens (pyStrip text2)⟩
            [⟨buildPrompt msgs, some (claimEffective mt),
                some (generate_comprehensive_gbnf_grammar schema)⟩,
              ⟨buildPrompt msgs ++ "\nRespond with valid JSON only.",
                some (claimEffective mt), none⟩])) ∧
    (v1_beta_chat_completions_parse msgs (.dictSchema schema) mt false engine jloads =
      .httpError 500 []) ∧
    (∀ m m2, engine 0 = .exn m → engine 1 = .exn m2 →
      v1_beta_chat_completions_parse msgs (.dictSchema schema) mt true engine jloads =
        .httpError 500
          [⟨buildPrompt msgs, some (claimEffective mt),
              some (generate_comprehensive_gbnf_grammar schema)⟩,
            ⟨buildPrompt msgs ++ "\nRespond with valid JSON only.",
              some (claimEffective mt), none⟩]) := by
  refine ⟨?_, ?_, ?_⟩
  · intro m text2 hE0 hE1
    constructor
    · intro hJ
      simp [v1_beta_chat_completions_parse, hE0, hE1, hJ, effective_eq]
    · intro j hJ
      simp [v1_beta_chat_completions_parse, hE0, hE1, hJ, effective_eq]
  · simp [v1_beta_chat_completions_parse]
  · intro m m2 hE0 hE1
    simp [v1_beta_chat_completions_parse, hE0, hE1, effective_eq]

/-- Witness for C4 amended: a concrete request whose grammar-constrained
call fails and whose fallback text does not parse is answered 200 with the
wrapped raw text after exactly two engine calls. -/
theorem C4_fallback_amended_witness :
    v1_beta_chat_completions_parse [] (.dictSchema ⟨some "object", [], [], none⟩) none
        true (fun n => if n = 0 then .exn "boom" else .ok "notjson") (fun _ => none) =
      .ok "notjson" (.wrapped "Fallback failed" "notjson") ⟨1, 2, 3⟩
        [⟨"", some (claimEffective none), some default_json_grammar⟩,
          ⟨"\nRespond with valid JSON only.", some (claimEffective none), none⟩] :=
  ((C4_fallback_amended [] ⟨some "object", [], [], none⟩ none
      (fun n => if n = 0 then .exn "boom" else .ok "notjson") (fun _ => none)).1
    "boom" "notjson" rfl rfl).1 rfl

/-! ## C3 — retry behaviour of `forward_request` -/

/-- Claim C3 as stated: after a transport exception the balancer retries at
most once, on a freshly selected backend different from the first, and no
execution makes more than two backend attempts. -/
def ClaimC3Statement : Prop :=
  ∀ oracle fuel k lb t, forward_request oracle fuel k lb = some t →
    t.attempts.length ≤ 2 ∧ (∀ i j, t.attempts = [i, j] → j ≠ i)

/-- C3 as stated is false: with two registered backends that both keep
raising transport exceptions, one inbound forward makes four attempts
(positions 0, 0, 0, 1); and with a failure followed by a success the retry
lands on the *same* backend that just failed (positions 0, 0), because the
recursive call selects afresh. -/
theorem C3_claim_counterexample :
    ¬ClaimC3Statement ∧
    (forward_request (fun k => if k = 0 then .exn else .ok 200) 10 0
        ⟨[Backend.init "h" 8080, Backend.init "h" 8081], 0⟩).map FwdTrace.attempts =
      some [0, 0] := by
  constructor
  · intro h
    have hval : (forward_request (fun _ => Transport.exn) 10 0
        ⟨[Backend.init "h" 8080, Backend.init "h" 8081], 0⟩).map FwdTrace.attempts =
        some [0, 0, 0, 1] := by decide
    cases hE : forward_request (fun _ => Transport.exn) 10 0
        ⟨[Backend.init "h" 8080, Backend.init "h" 8081], 0⟩ with
    | none => rw [hE] at hval; cases hval
    | some t =>
      have hlen := (h _ _ _ _ t hE).1
      rw [hE] at hval
      simp at hval
      rw [hval] at hlen
      simp at hlen
  · decide

lemma healthy_backends_eq_of_backends {lb lb2 : LoadBalancer}
    (h : lb.backends = lb2.backends) : lb.healthy_backends = lb2.healthy_backends := by
  unfold LoadBalancer.healthy_backends
  rw [h]

lemma get_next_backend_some_healthy {lb : LoadBalancer} {p : Nat × Backend}
    {lb2 : LoadBalancer} (h : lb.get_next_backend = (some p, lb2)) :
    lb.healthy_backends ≠ [] := by
  intro hempty
  have := (get_next_backend_none_iff lb).mpr hempty
  rw [h] at this
  cases this

lemma forward_unfold_none {oracle : Nat → Transport} {fuel k : Nat} {lb lb1 : LoadBalancer}
    (hsel : lb.get_next_backend = (none, lb1)) :
    forward_request oracle (fuel + 1) k lb = some ⟨.error 503, [], lb1, k⟩ := by
  simp only [forward_request, hsel]

lemma forward_unfold_ok {oracle : Nat → Transport} {fuel k : Nat} {lb lb1 : LoadBalancer}
    {i : Nat} {b : Backend} {status : Nat}
    (hsel : lb.get_next_backend = (some (i, b), lb1)) (ho : oracle k = .ok status) :
    forward_request oracle (fuel + 1) k lb =
      some ⟨.ok status, [i],
        if status = 200 then lb1.mark_success_at i else lb1.mark_error_at i, k + 1⟩ := by
  simp only [forward_request, hsel, ho]

lemma forward_unfold_exn_none {oracle : Nat → Transport} {fuel k : Nat}
    {lb lb1 lb3 : LoadBalancer} {i : Nat} {b : Backend}
    (hsel : lb.get_next_backend = (some (i, b), lb1)) (ho : oracle k = .exn)
    (hsel2 : (lb1.mark_error_at i).get_next_backend = (none, lb3)) :
    forward_request oracle (fuel + 1) k lb = some ⟨.error 502, [i], lb3, k + 1⟩ := by
  simp only [forward_request, hsel, ho, hsel2]

lemma forward_unfold_exn_same {oracle : Nat → Transport} {fuel k : Nat}
    {lb lb1 lb3 : LoadBalancer} {i : Nat} {b b2 : Backend}
    (hsel : lb.get_next_backend = (some (i, b), lb1)) (ho : oracle k = .exn)
    (hsel2 : (lb1.mark_error_at i).get_next_backend = (some (i, b2), lb3)) :
    forward_request oracle (fuel + 1) k lb = some ⟨.error 502, [i], lb3, k + 1⟩ := by
  simp only [forward_request, hsel, ho, hsel2]
  simp

lemma forward_unfold_exn_other {oracle : Nat → Transport} {fuel k : Nat}
    {lb lb1 lb3 : LoadBalancer} {i j : Nat} {b b2 : Backend}
    (hsel : lb.get_next_backend = (some (i, b), lb1)) (ho : oracle k = .exn)
    (hij : j ≠ i)
    (hsel2 : (lb1.mark_error_at i).get_next_backend = (some (j, b2), lb3)) :
    forward_request oracle (fuel + 1) k lb =
      (forward_request oracle fuel (k + 1) lb3).map
        (fun t => ⟨t.outcome, i :: t.attempts, t.lb, t.next_k⟩) := by
  simp only [forward_request, hsel, ho, hsel2]
  rw [if_neg hij]
  cases forward_request oracle fuel (k + 1) lb3 with
  | none => rfl
  | some t => rfl

/-- Attempt counting and exception discipline along any completed forward:
the attempt counter advances once per attempt, every attempt except
possibly the last was answered by a transport exception (any HTTP
response, even non-200, ends the forward), and HTTP 503 arises exactly
with no attempt at all, on a balancer with no healthy backend. -/
lemma forward_request_trace_props (oracle : Nat → Transport) :
    ∀ fuel k lb t, forward_request oracle fuel k lb = some t →
      t.next_k = k + t.attempts.length ∧
      (∀ m, m + 1 < t.attempts.length → oracle (k + m) = .exn) ∧
      (t.outcome = .error 503 → t.attempts = [] ∧ lb.healthy_backends = []) := by
  intro fuel
  induction fuel with
  | zero => intro k lb t h; cases h
  | succ fuel ih =>
    intro k lb t h
    rcases hgnb : lb.get_next_backend with ⟨res, lb1⟩
    cases res with
    | none =>
      rw [forward_unfold_none hgnb] at h
      cases h
      refine ⟨by simp, by intro m hm; simp at hm, fun _ => ⟨rfl, ?_⟩⟩
      have hnone := (get_next_backend_none_iff lb).mp
      rw [hgnb] at hnone
      exact hnone rfl
    | some p =>
      rcases p with ⟨i, b⟩
      cases ho : oracle k with
      | ok status =>
        rw [forward_unfold_ok hgnb ho] at h
        cases h
        refine ⟨by simp, by intro m hm; simp at hm, by intro hout; simp at hout⟩
      | exn =>
        rcases hgnb2 : (lb1.mark_error_at i).get_next_backend with ⟨res2, lb3⟩
        cases res2 with
        | none =>
          rw [forward_unfold_exn_none hgnb ho hgnb2] at h
          cases h
          refine ⟨by simp, by intro m hm; simp at hm, by intro hout; simp at hout⟩
        | some p2 =>
          rcases p2 with ⟨j, b2⟩
          by_cases hij : j = i
          · subst hij
            rw [forward_unfold_exn_same hgnb ho hgnb2] at h
            cases h
            refine ⟨by simp, by intro m hm; simp at hm, by intro hout; simp at hout⟩
          · rw [forward_unfold_exn_other hgnb ho hij hgnb2] at h
            cases hrec : forward_request oracle fuel (k + 1) lb3 with
            | none =>
              rw [hrec] at h
              cases h
            | some t2 =>
              rw [hrec] at h
              simp only [Option.map_some'] at h
              cases h
              obtain ⟨ihk, ihm, ih503⟩ := ih (k + 1) lb3 t2 hrec
              refine ⟨?_, ?_, ?_⟩
              · simp only [List.length_cons]
                omega
              · intro m hm
                cases m with
                | zero => simpa using ho
                | succ m2 =>
                  have hlt : m2 + 1 < t2.attempts.length := by
                    simp only [List.length_cons] at hm
                    omega
                  have hstep := ihm m2 hlt
                  have harith : k + 1 + m2 = k + (m2 + 1) := by omega
                  rw [harith] at hstep
                  exact hstep
              · intro hout
                exfalso
                have h503 := ih503 hout
                have hb3ne : (lb1.mark_error_at i).healthy_backends ≠ [] :=
                  get_next_backend_some_healthy hgnb2
                have hback : lb3.backends = (lb1.mark_error_at i).backends := by
                  have hgb := get_next_backend_backends (lb1.mark_error_at i)
                  rw [hgnb2] at hgb
                  exact hgb
                have heq : lb3.healthy_backends = (lb1.mark_error_at i).healthy_backends :=
                  healthy_backends_eq_of_backends hback
                rw [heq] at h503
                exact hb3ne h503.2

/-- C3 amended: on a transport exception the selected backend is marked
errored and a fresh selection is made; if that yields no backend or the
same backend, HTTP 502 is raised; otherwise the *entire forward is rerun*
(performing its own fresh selection), so a retry may land on any backend —
including the one that just failed — and more than two attempts can occur.
Every attempt after the first follows a transport exception, and HTTP 503
arises only with no attempt at all. -/
theorem C3_retry_amended (oracle : Nat → Transport) :
    (∀ fuel k lb i b lb1 lb3, oracle k = .exn →
      lb.get_next_backend = (some (i, b), lb1) →
      ((lb1.mark_error_at i).get_next_backend.1 = none ∨
        (∃ b2, (lb1.mark_error_at i).get_next_backend.1 = some (i, b2)) →
        ∃ lbf, forward_request oracle (fuel + 1) k lb =
          some ⟨.error 502, [i], lbf, k + 1⟩) ∧
      (∀ j b2, j ≠ i →
        (lb1.mark_error_at i).get_next_backend = (some (j, b2), lb3) →
        forward_request oracle (fuel + 1) k lb =
          (forward_request oracle fuel (k + 1) lb3).map
            (fun t => ⟨t.outcome, i :: t.attempts, t.lb, t.next_k⟩))) ∧
    (∀ fuel k lb t, forward_request oracle fuel k lb = some t →
      t.next_k = k + t.attempts.length ∧
      (∀ m, m + 1 < t.attempts.length → oracle (k + m) = .exn) ∧
      (t.outcome = .error 503 → t.attempts = [] ∧ lb.healthy_backends = [])) := by
  constructor
  · intro fuel k lb i b lb1 lb3 ho hsel
    constructor
    · intro hcase
      rcases hgnb2 : (lb1.mark_error_at i).get_next_backend with ⟨res2, lbf⟩
      rcases hcase with hnone | ⟨b2, hsame⟩
      · rw [hgnb2] at hnone
        simp at hnone
        subst hnone
        exact ⟨lbf, forward_unfold_exn_none hsel ho hgnb2⟩
      · rw [hgnb2] at hsame
        simp at hsame
        subst hsame
        exact ⟨lbf, forward_unfold_exn_same hsel ho hgnb2⟩
    · intro j b2 hij hsel2
      exact forward_unfold_exn_other hsel ho hij hsel2
  · exact forward_request_trace_props oracle

/-- Witness for C3 amended: applying the trace analysis to the concrete
four-attempt run of two failing backends. -/
theorem C3_retry_amended_witness :
    (FwdTrace.mk (.error 502) [0, 0, 0, 1]
        ⟨[⟨"h", 8080, false, 3⟩, ⟨"h", 8081, true, 1⟩], 0⟩ 4).next_k =
      0 + (FwdTrace.mk (.error 502) [0, 0, 0, 1]
        ⟨[⟨"h", 8080, false, 3⟩, ⟨"h", 8081, true, 1⟩], 0⟩ 4).attempts.length :=
  ((C3_retry_amended (fun _ => Transport.exn)).2 10 0
    ⟨[Backend.init "h" 8080, Backend.init "h" 8081], 0⟩
    ⟨.error 502, [0, 0, 0, 1], ⟨[⟨"h", 8080, false, 3⟩, ⟨"h", 8081, true, 1⟩], 0⟩, 4⟩
    (by rfl)).1

/-! ## C8 — helper-rule deduplication -/

/-- Claim C8 as stated: in the grammar generated for an object schema,
each helper rule definition appears at most once. -/
def ClaimC8Statement : Prop :=
  ∀ schema : JsonSchema, schema.type = some "object" →
    countOccurrences ("array-string ::=").data
        (generate_comprehensive_gbnf_grammar schema).data ≤ 1 ∧
    countOccurrences ("array-number ::=").data
        (generate_comprehensive_gbnf_grammar schema).data ≤ 1 ∧
    countOccurrences ("enum-array ::=").data
        (generate_comprehensive_gbnf_grammar schema).data ≤ 1

/-- An object schema with two array-of-string properties. -/
def schemaTwoArrays : JsonSchema :=
  ⟨some "object",
    [("a", ⟨some "array", none, some ⟨some "string", none⟩⟩),
      ("b", ⟨some "array", none, some ⟨some "string", none⟩⟩)], [], none⟩

/-- C8 as stated is false: the helper loop appends one block per
array-typed property without deduplication, so a schema with two
array-of-string properties yields the `array-string` rule twice. -/
theorem C8_claim_counterexample : ¬ClaimC8Statement := by
  intro h
  have h2 := (h schemaTwoArrays rfl).1
  revert h2
  decide

/-- The helper block that the generator's per-property loop appends for
one property (empty for non-array properties). -/
def helper_block (kp : String × PropSchema) : String :=
  if kp.2.type = some "array" then
    let items_schema := kp.2.items.getD defaultItems
    let item_type := items_schema.type.getD "string"
    match items_schema.enum with
    | some enum_values => enum_array_block enum_values
    | none =>
      if item_type = "string" then array_string_block
      else if item_type = "number" then array_number_block
      else ""
  else ""

lemma helper_fold_step (g : String) (kp : String × PropSchema) :
    (if kp.2.type = some "array" then
      let items_schema := kp.2.items.getD defaultItems
      let item_type := items_schema.type.getD "string"
      match items_schema.enum with
      | some enum_values => g ++ enum_array_block enum_values
      | none =>
        if item_type = "string" then g ++ array_string_block
        else if item_type = "number" then g ++ array_number_block
        else g
     else g) = g ++ helper_block kp := by
  unfold helper_block
  by_cases h1 : kp.2.type = some "array"
  · simp only [h1, if_true]
    cases (kp.2.items.getD defaultItems).enum with
    | some vals => rfl
    | none =>
      by_cases h2 : (kp.2.items.getD defaultItems).type.getD "string" = "string"
      · simp [h2]
      · by_cases h3 : (kp.2.items.getD defaultItems).type.getD "string" = "number" <;>
          simp [h2, h3]
  · simp [h1]

lemma helper_foldl_join (props : List (String × PropSchema)) : ∀ g : String,
    props.foldl (fun g kp =>
      if kp.2.type = some "array" then
        let items_schema := kp.2.items.getD defaultItems
        let item_type := items_schema.type.getD "string"
        match items_schema.enum with
        | some enum_values => g ++ enum_array_block enum_values
        | none =>
          if item_type = "string" then g ++ array_string_block
          else if item_type = "number" then g ++ array_number_block
          else g
      else g) g = g ++ String.join (props.map helper_block) := by
  induction props with
  | nil => intro g; simp [String.join]
  | cons kp rest ih =>
    intro g
    simp only [List.foldl_cons, List.map_cons]
    rw [helper_fold_step, ih, join_cons, String.append_assoc]

/-- C8 amended: the grammar of an object schema with properties is the root
and base rules followed by the concatenation of *one helper block per
array-typed property* — helpers are not deduplicated, so a schema whose
array properties share a helper contains that helper's rule once per such
property (twice in the two-array example). -/
theorem C8_helper_duplication_amended :
    (∀ schema : JsonSchema, schema.type = some "object" → schema.properties ≠ [] →
      ∃ root_part, generate_comprehensive_gbnf_grammar schema =
        root_part ++ base_rules ++ String.join (schema.properties.map helper_block)) ∧
    countOccurrences ("array-string ::=").data
      (generate_comprehensive_gbnf_grammar schemaTwoArrays).data = 2 := by
  constructor
  · intro schema htype hprops
    unfold generate_comprehensive_gbnf_grammar
    rw [if_pos htype, if_neg hprops]
    rw [helper_foldl_join]
    exact ⟨_, rfl⟩
  · decide

/-- Witness for C8 amended at the two-array schema. -/
theorem C8_helper_duplication_amended_witness :
    ∃ root_part, generate_comprehensive_gbnf_grammar schemaTwoArrays =
      root_part ++ base_rules ++ String.join (schemaTwoArrays.properties.map helper_block) :=
  C8_helper_duplication_amended.1 schemaTwoArrays rfl (by decide)

/-! ## C1 — soundness of the generated grammars

The counterexample shows the claim fails as stated (top-level arrays of
`integer`/`boolean` items collapse to the empty-object grammar, grammar
numbers admit leading zeros and grammar strings admit raw control
characters, both rejected by strict JSON, and a top-level number array
ignores a declared enum).  The amended theorem proves shape soundness for
the cleaned-up subset under the lenient JSON reading `JTextL`. -/

def cleanEnum (vals : List String) : Prop := ∀ v ∈ vals, noEscChars v.data

/-- The per-property restrictions of the amended claim: enum values are
quote/backslash-free, and array items are typed `string` or `number` when
no enum is declared (other item types reference helper rules the generator
never defines). -/
def RestrictedProp (p : PropSchema) : Prop :=
  (∀ vals, p.enum = some vals → cleanEnum vals) ∧
  (p.type.getD "string" = "array" →
    (∀ vals, (p.items.getD defaultItems).enum = some vals → cleanEnum vals) ∧
    ((p.items.getD defaultItems).enum = none →
      (p.items.getD defaultItems).type.getD "string" = "string" ∨
      (p.items.getD defaultItems).type.getD "string" = "number"))

/-- The enum list of an array-typed property, when any. -/
def enumArrayOf (p : PropSchema) : Option (List String) :=
  if p.type.getD "string" = "array" then (p.items.getD defaultItems).enum else none

/-- The amended claim's schema subset: object schemas with clean keys and
restricted properties whose array-enum properties agree on one enum list
(distinct enums produce conflicting `enum-array` rule definitions), or
top-level arrays of clean-enum strings or plain numbers. -/
def RestrictedSchema (schema : JsonSchema) : Prop :=
  (schema.type = some "object" ∧
    (∀ kp ∈ schema.properties, noEscChars kp.1.data ∧ RestrictedProp kp.2) ∧
    (∀ kp ∈ schema.properties, ∀ kq ∈ schema.properties, ∀ l m,
      enumArrayOf kp.2 = some l → enumArrayOf kq.2 = some m → l = m)) ∨
  (schema.type = some "array" ∧
    (((schema.items.getD defaultItems).type.getD "string" = "string" ∧
        ∀ vals, (schema.items.getD defaultItems).enum = some vals → cleanEnum vals) ∨
      ((schema.items.getD defaultItems).type.getD "string" = "number" ∧
        (schema.items.getD defaultItems).enum = none)))

lemma WsG_WsJ {w : List Char} (h : WsG w) : WsJ w := by
  intro c hc
  rcases h c hc with h1 | h1 | h1 <;> simp [WsJChar, h1]

lemma GNum_NumLex {s : List Char} (h : GNum s) : NumLex s := by
  obtain ⟨sign, ds, frac, hsign, hds, hfrac, rfl⟩ := h
  exact ⟨sign, ds, frac, [], hsign, hds, hfrac, Or.inl rfl, by simp⟩

lemma GStr_sound {s : List Char} (h : GStr s) : ∃ str : String, JTextL (.str str) s := by
  obtain ⟨cs, hcs, rfl⟩ := h
  exact ⟨String.mk cs, JTextL.str cs hcs⟩

lemma GNum_sound {s : List Char} (h : GNum s) : JTextL (.num (String.mk s)) s :=
  JTextL.num s (GNum_NumLex h)

lemma GBool_sound {s : List Char} (h : GBool s) : ∃ b, JTextL (.bool b) s := by
  rcases h with rfl | rfl
  · exact ⟨true, JTextL.btrue⟩
  · exact ⟨false, JTextL.bfalse⟩

lemma GEnum_sound {vals : List String} {s : List Char}
    (hclean : cleanEnum vals) (h : GEnum vals s) : ∃ v ∈ vals, JTextL (.str v) s := by
  obtain ⟨v, hv, rfl⟩ := h
  exact ⟨v, hv, JTextL.str v.data (hclean v hv)⟩

lemma GEmptyObj_sound {s : List Char} (h : GEmptyObj s) : JTextL (.obj []) s := by
  obtain ⟨w, hw, rfl⟩ := h
  exact JTextL.objEmpty w (WsG_WsJ hw)

lemma GSeq_sound {L : List Char → Prop} {P : Json → Prop}
    (hL : ∀ s, L s → ∃ j, JTextL j s ∧ P j) {body : List Char} (hbody : GSeq L body) :
    ∀ w, WsG w → ∃ js, JItems js (body ++ w) ∧ ∀ j ∈ js, P j := by
  induction hbody with
  | single s hs =>
    intro w hw
    obtain ⟨j, hj, hp⟩ := hL s hs
    refine ⟨[j], JItems.last j s w hj (WsG_WsJ hw), ?_⟩
    intro j2 hj2
    rw [List.mem_singleton] at hj2
    subst hj2
    exact hp
  | cons s w1 w2 rest hs hw1 hw2 hrest ih =>
    intro w hw
    obtain ⟨j, hj, hp⟩ := hL s hs
    obtain ⟨js, hjs, hps⟩ := ih w hw
    refine ⟨j :: js, ?_, ?_⟩
    · have hcons := JItems.cons j s w1 w2 (rest ++ w) js hj (WsG_WsJ hw1) (WsG_WsJ hw2) hjs
      simpa [List.append_assoc] using hcons
    · intro j2 hj2
      rcases List.mem_cons.mp hj2 with rfl | hmem
      · exact hp
      · exact hps j2 hmem

lemma GArr_sound {L : List Char → Prop} {P : Json → Prop}
    (hL : ∀ s, L s → ∃ j, JTextL j s ∧ P j) {s : List Char} (h : GArr L s) :
    ∃ js, JTextL (.arr js) s ∧ ∀ j ∈ js, P j := by
  rcases h with ⟨w1, w2, hw1, hw2, rfl⟩ | ⟨w1, body, w2, hw1, hbody, hw2, rfl⟩
  · refine ⟨[], ?_, by simp⟩
    have hws : WsJ (w1 ++ w2) := by
      intro c hc
      rcases List.mem_append.mp hc with hin | hin
      · exact WsG_WsJ hw1 c hin
      · exact WsG_WsJ hw2 c hin
    exact JTextL.arrEmpty (w1 ++ w2) hws
  · obtain ⟨js, hjs, hps⟩ := GSeq_sound hL hbody w2 hw2
    refine ⟨js, ?_, hps⟩
    have harr := JTextL.arr w1 (body ++ w2) js (WsG_WsJ hw1) hjs
    simpa [List.append_assoc] using harr

lemma propValue_sound (p : PropSchema) (hp : RestrictedProp p) :
    ∀ s, propValueLang p s → ∃ j, JTextL j s ∧ propShapeOK p j = true := by
  intro s hs
  obtain ⟨henum, harr⟩ := hp
  by_cases h1 : p.type.getD "string" = "string"
  · cases he : p.enum with
    | some vals =>
      have hs2 : GEnum vals s := by simpa [propValueLang, h1, he] using hs
      obtain ⟨v, hv, hj⟩ := GEnum_sound (henum vals he) hs2
      exact ⟨.str v, hj, by simp [propShapeOK, h1, he, hv]⟩
    | none =>
      have hs2 : GStr s := by simpa [propValueLang, h1, he] using hs
      obtain ⟨str, hj⟩ := GStr_sound hs2
      exact ⟨.str str, hj, by simp [propShapeOK, h1, he]⟩
  · by_cases h2n : p.type.getD "string" = "number"
    · have hs2 : GNum s := by simpa [propValueLang, h1, h2n] using hs
      exact ⟨.num (String.mk s), GNum_sound hs2, by simp [propShapeOK, h1, h2n]⟩
    · by_cases h2i : p.type.getD "string" = "integer"
      · have hs2 : GNum s := by simpa [propValueLang, h1, h2n, h2i] using hs
        exact ⟨.num (String.mk s), GNum_sound hs2, by simp [propShapeOK, h1, h2n, h2i]⟩
      · by_cases h3 : p.type.getD "string" = "boolean"
        · have hs2 : GBool s := by simpa [propValueLang, h1, h2n, h2i, h3] using hs
          obtain ⟨b, hj⟩ := GBool_sound hs2
          exact ⟨.bool b, hj, by simp [propShapeOK, h1, h2n, h2i, h3]⟩
        · by_cases h4 : p.type.getD "string" = "array"
          · cases he : (p.items.getD defaultItems).enum with
            | some vals =>
              have hclean := (harr h4).1 vals he
              have hs2 : GArr (GEnum vals) s := by
                simpa [propValueLang, h1, h2n, h2i, h3, h4, he] using hs
              obtain ⟨js, hjs, hPs⟩ := GArr_sound
                (P := fun j => itemShapeOK (p.items.getD defaultItems) j = true)
                (fun s2 hsE => by
                  obtain ⟨v, hv, hj⟩ := GEnum_sound hclean hsE
                  exact ⟨.str v, hj, by simp [itemShapeOK, he, hv]⟩)
                hs2
              refine ⟨.arr js, hjs, ?_⟩
              simp only [propShapeOK, h1, h2n, h2i, h3, h4]
              simpa [List.all_eq_true] using hPs
            | none =>
              rcases (harr h4).2 he with hti | hti
              · have hs2 : GArr GStr s := by
                  simpa [propValueLang, h1, h2n, h2i, h3, h4, he, hti] using hs
                obtain ⟨js, hjs, hPs⟩ := GArr_sound
                  (P := fun j => itemShapeOK (p.items.getD defaultItems) j = true)
                  (fun s2 hsE => by
                    obtain ⟨str, hj⟩ := GStr_sound hsE
                    exact ⟨.str str, hj, by simp [itemShapeOK, he, hti]⟩)
                  hs2
                refine ⟨.arr js, hjs, ?_⟩
                simp only [propShapeOK, h1, h2n, h2i, h3, h4]
                simpa [List.all_eq_true] using hPs
              · have hs2 : GArr GNum s := by
                  simpa [propValueLang, h1, h2n, h2i, h3, h4, he, hti] using hs
                obtain ⟨js, hjs, hPs⟩ := GArr_sound
                  (P := fun j => itemShapeOK (p.items.getD defaultItems) j = true)
                  (fun s2 hsE => ⟨.num (String.mk s2), GNum_sound hsE,
                    by simp [itemShapeOK, he, hti]⟩)
                  hs2
                refine ⟨.arr js, hjs, ?_⟩
                simp only [propShapeOK, h1, h2n, h2i, h3, h4]
                simpa [List.all_eq_true] using hPs
          · by_cases h5 : p.type.getD "string" = "object"
            · have hs2 : GEmptyObj s := by
                simpa [propValueLang, h1, h2n, h2i, h3, h4, h5] using hs
              exact ⟨.obj [], GEmptyObj_sound hs2,
                by simp [propShapeOK, h1, h2n, h2i, h3, h4, h5]⟩
            · have hs2 : GStr s := by
                simpa [propValueLang, h1, h2n, h2i, h3, h4, h5] using hs
              obtain ⟨str, hj⟩ := GStr_sound hs2
              exact ⟨.str str, hj, by simp [propShapeOK, h1, h2n, h2i, h3, h4, h5]⟩

lemma PropsLang_sound {props : List (String × PropSchema)} {mid : List Char}
    (hmid : PropsLang props mid) :
    (∀ kp ∈ props, noEscChars kp.1.data ∧ RestrictedProp kp.2) →
    ∀ w, WsG w →
    ∃ fields, JMembers fields (mid ++ w) ∧ fieldsShapeOK fields props = true := by
  induction hmid with
  | single k p w1 w2 v hv hw1 hw2 =>
    intro hclean w hw
    have hkp := hclean (k, p) (by simp)
    obtain ⟨j, hj, hshape⟩ := propValue_sound p hkp.2 v hv
    refine ⟨[(k, j)], ?_, ?_⟩
    · have hlast := JMembers.last k.data j w1 w2 v w hkp.1 hj
        (WsG_WsJ hw1) (WsG_WsJ hw2) (WsG_WsJ hw)
      simpa [List.append_assoc] using hlast
    · simp [fieldsShapeOK, hshape]
  | cons k p w1 w2 v w3 w4 rest ps hv hw1 hw2 hw3 hw4 hrest ih =>
    intro hclean w hw
    have hkp := hclean (k, p) (by simp)
    have hcleanps : ∀ kp ∈ ps, noEscChars kp.1.data ∧ RestrictedProp kp.2 :=
      fun kp hk => hclean kp (by simp [hk])
    obtain ⟨j, hj, hshape⟩ := propValue_sound p hkp.2 v hv
    obtain ⟨fields, hfields, hfs⟩ := ih hcleanps w hw
    refine ⟨(k, j) :: fields, ?_, ?_⟩
    · have hcons := JMembers.cons k.data j w1 w2 v w3 w4 (rest ++ w) fields hkp.1 hj
        (WsG_WsJ hw1) (WsG_WsJ hw2) (WsG_WsJ hw3) (WsG_WsJ hw4) hfields
      simpa [List.append_assoc] using hcons
    · simp [fieldsShapeOK, hshape, hfs]

/-- C1 amended: for schemas in the subset restricted to clean keys and enum
values (no quote/backslash), array items typed string/number or enum, one
enum list across array-enum properties, and top-level arrays of strings
(optionally enum) or plain numbers, every string derivable from the
generated grammar is the text of a JSON value under the lenient reading
(raw control characters in strings and leading-zero numbers allowed —
strict JSON rejects some derivable strings), and that value has the
schema's top-level shape: object keys exactly the declared properties in
declared order, enum leaves from the declared set, array elements of the
declared item type, nested objects rendered as empty objects. -/
theorem C1_grammar_soundness_amended (schema : JsonSchema)
    (h : RestrictedSchema schema) (s : List Char) (hs : SchemaLang schema s) :
    ∃ j, JTextL j s ∧ shapeOK schema j = true := by
  rcases h with ⟨htype, hclean, _hagree⟩ | ⟨htype, harr⟩
  · by_cases hempty : schema.properties = []
    · have hs2 : GEmptyObj s := by simpa [SchemaLang, htype, hempty] using hs
      exact ⟨.obj [], GEmptyObj_sound hs2, by simp [shapeOK, htype, hempty, fieldsShapeOK]⟩
    · have hs2 : ∃ w0 mid w1, WsG w0 ∧ PropsLang schema.properties mid ∧ WsG w1 ∧
          s = '\x7b' :: (w0 ++ mid ++ w1) ++ ['\x7d'] := by
        simpa [SchemaLang, htype, hempty] using hs
      obtain ⟨w0, mid, w1, hw0, hmid, hw1, rfl⟩ := hs2
      obtain ⟨fields, hfields, hfs⟩ := PropsLang_sound hmid hclean w1 hw1
      refine ⟨.obj fields, ?_, by simp [shapeOK, htype, hfs]⟩
      have hobj := JTextL.obj w0 (mid ++ w1) fields (WsG_WsJ hw0) hfields
      simpa [List.append_assoc] using hobj
  · have hne : schema.type ≠ some "object" := by rw [htype]; simp
    rcases harr with ⟨hti, hcleanE⟩ | ⟨hti, hnoe⟩
    · cases he : (schema.items.getD defaultItems).enum with
      | some vals =>
        have hs2 : GArr (GEnum vals) s := by
          simpa [SchemaLang, hne, htype, hti, he] using hs
        obtain ⟨js, hjs, hPs⟩ := GArr_sound
          (P := fun j => itemShapeOK (schema.items.getD defaultItems) j = true)
          (fun s2 hsE => by
            obtain ⟨v, hv, hj⟩ := GEnum_sound (hcleanE vals he) hsE
            exact ⟨.str v, hj, by simp [itemShapeOK, he, hv]⟩)
          hs2
        refine ⟨.arr js, hjs, ?_⟩
        simp only [shapeOK, hne, htype]
        simpa [List.all_eq_true] using hPs
      | none =>
        have hs2 : GArr GStr s := by
          simpa [SchemaLang, hne, htype, hti, he] using hs
        obtain ⟨js, hjs, hPs⟩ := GArr_sound
          (P := fun j => itemShapeOK (schema.items.getD defaultItems) j = true)
          (fun s2 hsE => by
            obtain ⟨str, hj⟩ := GStr_sound hsE
            exact ⟨.str str, hj, by simp [itemShapeOK, he, hti]⟩)
          hs2
        refine ⟨.arr js, hjs, ?_⟩
        simp only [shapeOK, hne, htype]
        simpa [List.all_eq_true] using hPs
    · have hnstr : (schema.items.getD defaultItems).type.getD "string" ≠ "string" := by
        rw [hti]; simp
      have hs2 : GArr GNum s := by
        simpa [SchemaLang, hne, htype, hti, hnstr] using hs
      obtain ⟨js, hjs, hPs⟩ := GArr_sound
        (P := fun j => itemShapeOK (schema.items.getD defaultItems) j = true)
        (fun s2 hsE => ⟨.num (String.mk s2), GNum_sound hsE,
          by simp [itemShapeOK, hnoe, hti]⟩)
        hs2
      refine ⟨.arr js, hjs, ?_⟩
      simp only [shapeOK, hne, htype]
      simpa [List.all_eq_true] using hPs

/-- Top-level array of booleans — in the claim's supported subset. -/
def schemaArrBool : JsonSchema := ⟨some "array", [], [], some ⟨some "boolean", none⟩⟩

/-- Object with a single number property. -/
def schemaTemp : JsonSchema := ⟨some "object", [("temp", ⟨some "number", none, none⟩)], [], none⟩

/-- Object with a single string property. -/
def schemaName : JsonSchema := ⟨some "object", [("name", ⟨some "string", none, none⟩)], [], none⟩

/-- Top-level array of numbers carrying an enum. -/
def schemaNumEnum : JsonSchema := ⟨some "array", [], [], some ⟨some "number", some ["1"]⟩⟩

/-- C1 as stated is false, in several independent ways.  (a) For the
supported schema "array of booleans" the generator falls through to the
default grammar, whose only derivations are empty JSON *objects* — not
arrays of booleans.  (b) The grammar's `number` rule derives `01`, so the
derivable `{"temp":01}` is rejected by strict JSON.  (c) The grammar's
`string` rule admits raw control characters, so the derivable
`{"name":"a\nb"}` is rejected by strict JSON.  (d) A top-level number
array ignores its declared enum, deriving `[2]` against enum `["1"]`. -/
theorem C1_claim_counterexample :
    ¬ClaimC1Statement ∧
    (SupportedSchema schemaTemp ∧ SchemaLang schemaTemp ("\x7b\"temp\":01\x7d").data ∧
      json_loads "\x7b\"temp\":01\x7d" = none) ∧
    (SupportedSchema schemaName ∧
      SchemaLang schemaName ("\x7b\"name\":\"a\nb\"\x7d").data ∧
      json_loads "\x7b\"name\":\"a\nb\"\x7d" = none) ∧
    (SupportedSchema schemaNumEnum ∧ SchemaLang schemaNumEnum ("[2]").data ∧
      json_loads "[2]" = some (.arr [.num "2"]) ∧
      shapeOK schemaNumEnum (.arr [.num "2"]) = false) := by
  have hGNum01 : GNum ['0', '1'] :=
    ⟨[], ['0', '1'], [], Or.inl rfl, ⟨by decide, by decide⟩, Or.inl rfl, by decide⟩
  have hGNum2 : GNum ['2'] :=
    ⟨[], ['2'], [], Or.inl rfl, ⟨by decide, by decide⟩, Or.inl rfl, by decide⟩
  refine ⟨?_, ⟨?_, ?_, rfl⟩, ⟨?_, ?_, rfl⟩, ⟨?_, ?_, rfl, rfl⟩⟩
  · intro hclaim
    have hsupp : SupportedSchema schemaArrBool :=
      Or.inr ⟨rfl, Or.inr (Or.inr (Or.inr rfl)), fun vals h => nomatch h⟩
    have hlang : SchemaLang schemaArrBool ['\x7b', '\x7d'] := ⟨[], by simp [WsG], rfl⟩
    obtain ⟨j, hparse, hshape⟩ := hclaim schemaArrBool hsupp ['\x7b', '\x7d'] hlang
    rw [show json_loads (String.mk ['\x7b', '\x7d']) = some (Json.obj []) from rfl]
      at hparse
    injection hparse with hj
    subst hj
    rw [show shapeOK schemaArrBool (Json.obj []) = false from rfl] at hshape
    simp at hshape
  · refine Or.inl ⟨rfl, ?_⟩
    intro kp hkp
    rw [show schemaTemp.properties = [("temp", ⟨some "number", none, none⟩)] from rfl,
      List.mem_singleton] at hkp
    subst hkp
    exact ⟨Or.inl (Or.inr (Or.inl rfl)), fun vals h => nomatch h⟩
  · exact ⟨[], '"' :: "temp".data ++ '"' :: ([] ++ ':' :: [] ++ ['0', '1']), [],
      by simp [WsG],
      PropsLang.single "temp" ⟨some "number", none, none⟩ [] [] ['0', '1'] hGNum01
        (by simp [WsG]) (by simp [WsG]),
      by simp [WsG], by decide⟩
  · refine Or.inl ⟨rfl, ?_⟩
    intro kp hkp
    rw [show schemaName.properties = [("name", ⟨some "string", none, none⟩)] from rfl,
      List.mem_singleton] at hkp
    subst hkp
    exact ⟨Or.inl (Or.inl rfl), fun vals h => nomatch h⟩
  · exact ⟨[], '"' :: "name".data ++ '"' ::
        ([] ++ ':' :: [] ++ ('"' :: ['a', '\n', 'b'] ++ ['"'])), [],
      by simp [WsG],
      PropsLang.single "name" ⟨some "string", none, none⟩ [] []
        ('"' :: ['a', '\n', 'b'] ++ ['"'])
        ⟨['a', '\n', 'b'], by decide, rfl⟩ (by simp [WsG]) (by simp [WsG]),
      by simp [WsG], by decide⟩
  · exact Or.inr ⟨rfl, Or.inr (Or.inl rfl), fun vals h => by injection h with h2; subst h2; decide⟩
  · exact Or.inr ⟨[], ['2'], [], by simp [WsG], GSeq.single ['2'] hGNum2,
      by simp [WsG], by decide⟩

/-- Witness for C1 amended on a concrete object schema and derivable
string. -/
theorem C1_grammar_soundness_amended_witness :
    ∃ j, JTextL j ("\x7b\"city\":\"tokyo\"\x7d").data ∧
      shapeOK ⟨some "object", [("city", ⟨some "string", none, none⟩)], [], none⟩ j = true :=
  C1_grammar_soundness_amended
    ⟨some "object", [("city", ⟨some "string", none, none⟩)], [], none⟩
    (Or.inl ⟨rfl,
      fun kp hkp => by
        rw [List.mem_singleton] at hkp
        subst hkp
        refine ⟨by decide, ?_⟩
        unfold RestrictedProp
        exact ⟨fun vals h => Option.noConfusion h, fun h => absurd h (by decide)⟩,
      fun kp hkp kq hkq l m h1 h2 => by
        rw [List.mem_singleton] at hkp
        subst hkp
        rw [show enumArrayOf ⟨some "string", none, none⟩ = none from rfl] at h1
        cases h1⟩)
    ("\x7b\"city\":\"tokyo\"\x7d").data
    ⟨[], '"' :: "city".data ++ '"' :: ([] ++ ':' :: [] ++ ('"' :: "tokyo".data ++ ['"'])),
      [], by simp [WsG],
      PropsLang.single "city" ⟨some "string", none, none⟩ [] []
        ('"' :: "tokyo".data ++ ['"']) ⟨"tokyo".data, by decide, rfl⟩
        (by simp [WsG]) (by simp [WsG]),
      by simp [WsG], by decide⟩
